import Mathlib

/-!
# Verification of the ts142 metadata resolution and reconciliation engine

Shallow embedding of the repository's three source files:

* `src/Backend/helper/imdb.py`        — primary (Cinemeta) provider client
* `src/Backend/helper/metadata.py`    — resolution engine, caches, normalizers
* `src/Backend/pyrofork/plugins/fix_metadata.py` — batch reconciler

Modelling conventions:

* HTTP transport and JSON decoding are abstracted into a `World` of response
  functions.  A `none`/`PyRes.exn` response stands for "non-200 status,
  transport error, or malformed body" — exactly the cases the Python code
  collapses via its `try/except` blocks and status checks.
* Python `dict.get` of a possibly-missing JSON field is modelled with
  `Option`; `o.getD d` is `meta.get(field, d)`.
* Python truthiness is modelled field-by-field: `Option String` values are
  truthy iff `some s` with `s ≠ ""`, lists iff non-empty, numbers iff
  non-zero.
* Numeric JSON leaves that the code immediately stringifies (episode/season
  numbers inside `videos`) are modelled as the strings `str(...)` would
  produce.
* `float(...)` is modelled by a decimal/exponent parser into an exact
  unnormalized numerator/denominator pair; the only control-flow-relevant
  aspect is whether the parse raises, which the parser reflects by
  returning `none`.
* A raised-and-propagated Python exception is `PyRes.exn`; functions whose
  exceptions are all swallowed internally are total.
-/

/-- Result of running a piece of Python code that may raise an exception
which the *caller* observes (all internally-swallowed exceptions are already
collapsed inside each embedded function). -/
inductive PyRes (α : Type) where
  | ok (v : α)
  | exn
deriving DecidableEq, Repr

/-- A small universe of Python values, used where the source passes values of
several runtime types into one function (`extract_first_year`). -/
inductive PyVal where
  | none
  | str (s : String)
  | int (n : Int)
  | bool (b : Bool)
deriving DecidableEq, Repr

/-- Python truthiness for `PyVal`. -/
def PyVal.truthy : PyVal → Bool
  | .none => false
  | .str s => s ≠ ""
  | .int n => n ≠ 0
  | .bool b => b

/-- Python `str(...)` for `PyVal`. -/
def PyVal.toStr : PyVal → String
  | .none => "None"
  | .str s => s
  | .int n => toString n
  | .bool b => if b then "True" else "False"

/-- Truthiness of an `Option String` field (`None` and `""` are falsy). -/
def truthyOS : Option String → Bool
  | Option.none => false
  | Option.some s => s ≠ ""

/-- Python `s.startswith(pre)` (kernel-reducible, unlike
`String.startsWith`). -/
def pyStartsWith (s pre : String) : Bool :=
  pre.toList.isPrefixOf s.toList

/-- Python `s.replace(pat, rep)` for a non-empty pattern: replace each
non-overlapping occurrence, scanning left to right (kernel-reducible,
unlike `String.replace`; structural on a fuel that starts at the string
length, which one consumed character per step can never exhaust). -/
def pyReplaceGo (pat rep : List Char) : Nat → List Char → List Char
  | _, [] => []
  | 0, l => l
  | fuel + 1, c :: rest =>
      if pat ≠ [] ∧ pat.isPrefixOf (c :: rest) then
        rep ++ pyReplaceGo pat rep fuel (rest.drop (pat.length - 1))
      else c :: pyReplaceGo pat rep fuel rest

def pyReplace (s pat rep : String) : String :=
  String.mk (pyReplaceGo pat.toList rep.toList s.toList.length s.toList)

/-- Python `str(x)` where `x : Option Nat` is an `int` or `None`
(`str(None) = "None"`). -/
def pyStrON : Option Nat → String
  | Option.none => "None"
  | Option.some n => toString n

/-- Association-list lookup (a Python `dict` probe `k in d` / `d[k]`). -/
def alookup {κ α : Type} [DecidableEq κ] (k : κ) : List (κ × α) → Option α
  | [] => Option.none
  | (k', v) :: rest => if k = k' then some v else alookup k rest

/-- Association-list insert (a Python `dict` assignment `d[k] = v`; newest
binding shadows). -/
def ainsert {κ α : Type} (k : κ) (v : α) (l : List (κ × α)) : List (κ × α) :=
  (k, v) :: l

@[simp] theorem alookup_ainsert {κ α : Type} [DecidableEq κ] (k : κ) (v : α)
    (l : List (κ × α)) : alookup k (ainsert k v l) = some v := by
  simp [alookup, ainsert]

/-- Case-insensitive-relevant lowering of a string, Python `s.lower()`
restricted to the ASCII letters that matter for the patterns in the source. -/
def pyLower (s : String) : String :=
  String.mk (s.toList.map Char.toLower)

/-- Substring containment, Python `needle in hay`. -/
def strContainsL : List Char → List Char → Bool
  | _, [] => false
  | needle, hay@(_ :: rest) =>
      if needle.isPrefixOf hay then true else strContainsL needle rest

def strContains (hay needle : String) : Bool :=
  if needle = "" then true else strContainsL needle.toList hay.toList

/-- Parse a run of decimal digits, returning the value and the rest. -/
def digitsRun : List Char → Nat → Nat × Nat × List Char
  | [], acc => (acc, 0, [])
  | c :: cs, acc =>
      if c.isDigit then
        let (v, n, rest) := digitsRun cs (acc * 10 + (c.toNat - '0'.toNat))
        (v, n + 1, rest)
      else (acc, 0, c :: cs)

/-- A Python `float` value, carried as an exact unnormalized
numerator/denominator pair: the claims only store and copy ratings, never
compute with them, and an unnormalized pair keeps every definition
kernel-reducible.  `⟨79, 10⟩` is `7.9`. -/
structure PyFloat where
  num : Int
  den : Nat
deriving DecidableEq, Repr

def pyZero : PyFloat := { num := 0, den := 1 }

/-- `getattr(details, "vote_average", 0) or 0`: the default fires when the
attribute is `None`, and `or 0` maps a falsy (zero) float to the literal
`0`. -/
def rateOf (v : Option PyFloat) : PyFloat :=
  match v with
  | Option.none => pyZero
  | Option.some x => if x.num = 0 then pyZero else x

/-- Python `float(s)` for plain decimal/exponent notation.
`none` means the parse raises `ValueError` (e.g. `float("N/A")`).
(Exotic accepted spellings — whitespace padding, `inf`, `nan`, underscores —
are not modelled; no claim depends on them.) -/
def pyFloat? (s : String) : Option PyFloat :=
  let cs := s.toList
  let (sgn, cs) := match cs with
    | '-' :: rest => ((-1 : Int), rest)
    | '+' :: rest => ((1 : Int), rest)
    | _ => ((1 : Int), cs)
  let (ip, ipn, cs) := digitsRun cs 0
  let (fp, fpn, cs) :=
    match cs with
    | '.' :: rest => digitsRun rest 0
    | _ => (0, 0, cs)
  if ipn = 0 ∧ fpn = 0 then Option.none
  else
    let num : Int := sgn * ((ip : Int) * (10 : Int) ^ fpn + (fp : Int))
    let den : Nat := 10 ^ fpn
    match cs with
    | [] => some { num := num, den := den }
    | e :: rest =>
        if e = 'e' ∨ e = 'E' then
          let (esign, rest) := match rest with
            | '-' :: r => (false, r)
            | '+' :: r => (true, r)
            | _ => (true, rest)
          let (ev, evn, rest) := digitsRun rest 0
          if evn = 0 ∨ rest ≠ [] then Option.none
          else some (if esign then { num := num * (10 : Int) ^ ev, den := den }
                     else { num := num, den := den * 10 ^ ev })
        else Option.none

/-! ## `src/Backend/helper/imdb.py` -/

/-- Leftmost run of four consecutive decimal digits, as a number —
the semantics of `re.search(r'(\d{4})', s)` followed by `int(...)`. -/
def firstYearRunL : List Char → Option Nat
  | c1 :: rest =>
      (match rest with
       | c2 :: c3 :: c4 :: _ =>
           if c1.isDigit && c2.isDigit && c3.isDigit && c4.isDigit then
             some (((c1.toNat - '0'.toNat) * 10 + (c2.toNat - '0'.toNat)) * 100
                   + (c3.toNat - '0'.toNat) * 10 + (c4.toNat - '0'.toNat))
           else firstYearRunL rest
       | _ => Option.none)
  | [] => Option.none

def firstYearRun (s : String) : Option Nat :=
  firstYearRunL s.toList

/-- `extract_first_year` (imdb.py lines 20–27). -/
def extract_first_year (year_string : PyVal) : Nat :=
  if ¬ year_string.truthy then 0
  else match firstYearRun year_string.toStr with
    | some y => y
    | Option.none => 0

/-- One entry of a Cinemeta catalog `metas` array. -/
structure SMeta where
  imdb_id : Option String
  id : Option String
  name : Option String
  releaseInfo : Option String
  poster : Option String
deriving DecidableEq, Repr

/-- One entry of a Cinemeta `meta.videos` array.  `season` and `episode` are
stored as the strings `str(...)` of the raw JSON values. -/
structure VideoObj where
  season : String
  episode : String
  title : Option String
  thumbnail : Option String
  overview : Option String
  released : Option String
deriving DecidableEq, Repr

/-- A Cinemeta `meta` object (the fields `get_detail` / `get_season` read). -/
structure MetaObj where
  imdb_id : Option String
  id : Option String
  mtype : Option String
  name : Option String
  description : Option String
  genres : Option (List String)
  genre : Option (List String)
  year : Option String
  releaseInfo : Option String
  released : Option String
  imdbRating : Option String
  poster : Option String
  background : Option String
  logo : Option String
  runtime : Option String
  director : Option (List String)
  cast : Option (List String)
  videos : Option (List VideoObj)
deriving DecidableEq, Repr

/-- Normalized record produced by `get_detail`. -/
structure Detail where
  id : String
  dtype : String
  title : String
  plot : String
  genre : List String
  year : Nat
  star : PyFloat
  poster : String
  background : String
  logo : String
  runtime : String
  director : List String
  cast : List String
  videos : List VideoObj
deriving DecidableEq, Repr

/-- Episode fragment produced by `get_season`. -/
structure EpFrag where
  title : String
  no : String
  season : String
  image : String
  plot : String
  released : String
deriving DecidableEq, Repr

/-- Search hit produced by `search_title`. -/
structure SearchHit where
  id : String
  stype : String
  title : String
  year : String
  poster : String
deriving DecidableEq, Repr

/-- TMDb search result (only `.id` is consumed by the source). -/
structure TmdbSearchResult where
  id : Nat
deriving DecidableEq, Repr

structure PyDate where
  y : Nat
  m : Nat
  d : Nat
deriving DecidableEq, Repr

structure TmdbExternalIds where
  imdb_id : Option String
deriving DecidableEq, Repr

structure TmdbCastMember where
  name : Option String
  original_name : Option String
deriving DecidableEq, Repr

structure TmdbCredits where
  cast : Option (List TmdbCastMember)
deriving DecidableEq, Repr

structure TmdbLogo where
  iso_639_1 : Option String
  file_path : String
deriving DecidableEq, Repr

structure TmdbImages where
  logos : Option (List TmdbLogo)
deriving DecidableEq, Repr

structure TmdbGenre where
  name : String
deriving DecidableEq, Repr

/-- A TMDb details object.  The client library returns distinct dataclasses
for movies and TV shows; both are modelled by this one record carrying both
kinds' fields (every attribute the source reads is present, possibly
`none`, matching the library's Optional-field dataclasses, under which the
`getattr(..., default)` fallbacks in the source never fire). -/
structure TmdbDetails where
  id : Nat
  external_ids : Option TmdbExternalIds
  imdb_id : Option String
  name : Option String
  title : Option String
  first_air_date : Option PyDate
  release_date : Option PyDate
  vote_average : Option PyFloat
  overview : Option String
  poster_path : String
  backdrop_path : String
  images : Option TmdbImages
  genres : Option (List TmdbGenre)
  credits : Option TmdbCredits
deriving DecidableEq, Repr

structure TmdbEpisode where
  name : Option String
  still_path : Option String
  overview : Option String
  air_date : Option PyDate
deriving DecidableEq, Repr

/-- A PTN season/episode value: a Python int or a list of ints. -/
inductive PyIntL where
  | intv (n : Nat)
  | listv (l : List Nat)
deriving DecidableEq, Repr

/-- Python truthiness of an optional int-or-list field. -/
def truthyPIL : Option PyIntL → Bool
  | Option.none => false
  | Option.some (.intv n) => n ≠ 0
  | Option.some (.listv l) => l ≠ []

/-- `isinstance(v, list)` on an optional field. -/
def isListPIL : Option PyIntL → Bool
  | Option.some (.listv _) => true
  | _ => false

/-- The fields of a `PTN.parse(filename)` result that `metadata` reads. -/
structure Parsed where
  title : Option String
  season : Option PyIntL
  episode : Option PyIntL
  year : Option Nat
  resolution : Option String
  excess : Option (List String)
deriving DecidableEq, Repr

/-- The external collaborators: provider HTTP endpoints (abstracted past
transport and JSON decoding), the filename parser, the tmdb-id extraction
helper and reference token encoder (code outside `src/`), and the clock.

* `cinemetaCatalog ty q`: the decoded `metas` array of
  `GET /catalog/{ty}/imdb/search={q}.json`; `none` = non-200, transport
  error, malformed body, falsy body, or missing `metas` key.
* `cinemetaMeta ty id`: the decoded `meta` object of
  `GET /meta/{ty}/{id}.json`; `none` = non-200 / error / missing `meta`.
* TMDb calls return `PyRes` because the client library raises on failure
  and the source's `except` clauses around those calls are live. -/
structure World where
  cinemetaCatalog : String → String → Option (List SMeta)
  cinemetaMeta : String → String → Option MetaObj
  tmdbSearchMovies : String → Option Nat → PyRes (List TmdbSearchResult)
  tmdbSearchTv : String → PyRes (List TmdbSearchResult)
  tmdbTvDetailsApi : Nat → PyRes TmdbDetails
  tmdbMovieDetailsApi : Nat → PyRes TmdbDetails
  tmdbEpisodeDetailsApi : Nat → Option Nat → Option Nat → PyRes TmdbEpisode
  ptnParse : String → PyRes Parsed
  extractTmdbId : String → PyRes (Option String)
  useDefaultId : String
  encodeString : Int → Int → PyRes String
  elapsed : Nat

/-- `search_title` (imdb.py lines 30–54): first catalog hit, normalized. -/
def search_title (w : World) (query : String) (type_ : String) : Option SearchHit :=
  let cinemeta_type := if type_ = "tvSeries" then "series" else type_
  match w.cinemetaCatalog cinemeta_type query with
  | Option.none => Option.none
  | some metas =>
      match metas with
      | [] => Option.none
      | meta :: _ =>
          some { id := meta.imdb_id.getD (meta.id.getD "")
               , stype := type_
               , title := meta.name.getD ""
               , year := meta.releaseInfo.getD ""
               , poster := meta.poster.getD "" }

/-- The year-selection loop of `get_detail` (imdb.py lines 73–78): walk
`['year', 'releaseInfo', 'released']`, keep the last extracted value,
stop at the first positive one. -/
def yearLoop : List (Option String) → Nat → Nat
  | [], acc => acc
  | f :: rest, acc =>
      if truthyOS f then
        let v := extract_first_year (.str (f.getD ""))
        if v > 0 then v else yearLoop rest v
      else yearLoop rest acc

/-- `rating.star` of `get_detail`:
`float(meta.get('imdbRating', '0')) if meta.get('imdbRating') else 0`.
`none` = the `float(...)` call raises. -/
def ratingStar (r : Option String) : Option PyFloat :=
  if truthyOS r then pyFloat? (r.getD "") else some pyZero

/-- `meta.get('genres', []) or meta.get('genre', [])`. -/
def genreOf (m : MetaObj) : List String :=
  let g1 := m.genres.getD []
  if g1 ≠ [] then g1 else m.genre.getD []

/-- The body of one iteration of `get_detail`'s loop (imdb.py lines 63–96):
probe `/meta/{media_type}/{imdb_id}.json` and normalize; `none` = this
sub-resource "fails" (non-200, missing `meta`, or any exception inside the
`try` — notably a malformed `imdbRating` making `float` raise). -/
def probeOne (w : World) (media_type : String) (imdb_id : String) : Option Detail :=
  match w.cinemetaMeta media_type imdb_id with
  | Option.none => Option.none
  | some meta =>
      match ratingStar meta.imdbRating with
      | Option.none => Option.none
      | some star =>
          some { id := meta.imdb_id.getD (meta.id.getD "")
               , dtype := meta.mtype.getD media_type
               , title := meta.name.getD ""
               , plot := meta.description.getD ""
               , genre := genreOf meta
               , year := yearLoop [meta.year, meta.releaseInfo, meta.released] 0
               , star := star
               , poster := meta.poster.getD ""
               , background := meta.background.getD ""
               , logo := meta.logo.getD ""
               , runtime := meta.runtime.getD ""
               , director := meta.director.getD []
               , cast := meta.cast.getD []
               , videos := meta.videos.getD [] }

/-- The `for media_type in ['movie', 'series']` loop of `get_detail`. -/
def get_detail_loop (w : World) (imdb_id : String) : List String → Option Detail
  | [] => Option.none
  | t :: rest =>
      match probeOne w t imdb_id with
      | some d => some d
      | Option.none => get_detail_loop w imdb_id rest

/-- `get_detail` (imdb.py lines 57–97). -/
def get_detail (w : World) (imdb_id : String) : Option Detail :=
  get_detail_loop w imdb_id ["movie", "series"]

/-- The video scan of `get_season` (imdb.py lines 112–122). -/
def findVideo (season_s episode_s : String) : List VideoObj → Option VideoObj
  | [] => Option.none
  | v :: rest =>
      if v.season = season_s ∧ v.episode = episode_s then some v
      else findVideo season_s episode_s rest

/-- `get_season` (imdb.py lines 100–125).  `season_id` / `episode_id` are
Python ints or `None` (the reconciler passes document fields that may be
absent); the comparisons and interpolations go through `str(...)`. -/
def get_season (w : World) (imdb_id : String) (season_id episode_id : Option Nat) :
    Option EpFrag :=
  match w.cinemetaMeta "series" imdb_id with
  | Option.none => Option.none
  | some meta =>
      match meta.videos with
      | Option.none => Option.none
      | some vs =>
          match findVideo (pyStrON season_id) (pyStrON episode_id) vs with
          | Option.none => Option.none
          | some v =>
              some { title := v.title.getD ("Episode " ++ pyStrON episode_id)
                   , no := pyStrON episode_id
                   , season := pyStrON season_id
                   , image := v.thumbnail.getD ""
                   , plot := v.overview.getD ""
                   , released := v.released.getD "" }

/-! ## `src/Backend/helper/metadata.py` — caches, events, helpers -/

/-- A `tmdb_id` output value: a Python int on the secondary-shaped path, a
string (the primary id with `"tt"` stripped) on the primary-shaped path. -/
inductive MId where
  | num (n : Nat)
  | strv (s : String)
deriving DecidableEq, Repr

/-- `$set` document of a movie/show-level `update_one`
(fix_metadata.py lines 102–115 and 151–164). -/
structure SetFields where
  tmdb_id : MId
  imdb_id : Option String
  cast : List String
  description : String
  genres : List String
  poster : String
  backdrop : String
  logo : String
  rating : PyFloat
deriving DecidableEq, Repr

/-- `$set` document of an episode-level `update_one`
(fix_metadata.py lines 198–209). -/
structure EpSetFields where
  overview : Option String
  released : String
  backdrop : String
deriving DecidableEq, Repr

inductive UnitKind where
  | movie
  | tv
  | episode
deriving DecidableEq, Repr

/-- Instrumentation events.  Provider-lookup events carry `outbound`:
`true` = an actual HTTP/provider call was made, `false` = the lookup was
served from a cache (`one `get_detail` invocation counts as one event even
though it may probe two sub-resources).  `unitStarted k n` marks a
reconciliation unit proceeding past a cancellation check; `n` is the index
of the guarding poll of the flag.  `update*` are record-store writes and
`report` is the final completion message. -/
inductive Ev where
  | imdbSearch (type_ query : String) (outbound : Bool)
  | imdbDetail (id : String) (outbound : Bool)
  | imdbSeason (key : String) (outbound : Bool)
  | tmdbSearch (type_ title : String) (year : Option Nat) (outbound : Bool)
  | tmdbDetails (id : Nat) (outbound : Bool)
  | tmdbEpisode (tv : Nat) (s e : Option Nat) (outbound : Bool)
  | unitStarted (k : UnitKind) (stamp : Nat)
  | updateMovie (shard tid : Nat) (fields : SetFields)
  | updateShow (shard tid : Nat) (fields : SetFields)
  | updateEpisode (shard tid : Nat) (s e : Option Nat) (fields : EpSetFields)
  | report (done total elapsed : Nat)
deriving DecidableEq, Repr

/-- Did this event go out to a provider? -/
def Ev.isOutbound : Ev → Bool
  | .imdbSearch _ _ b => b
  | .imdbDetail _ b => b
  | .imdbSeason _ b => b
  | .tmdbSearch _ _ _ b => b
  | .tmdbDetails _ b => b
  | .tmdbEpisode _ _ _ b => b
  | _ => false

/-- Is this a provider-lookup event at all (cache-served or outbound)? -/
def Ev.isProviderLookup : Ev → Bool
  | .imdbSearch _ _ _ => true
  | .imdbDetail _ _ => true
  | .imdbSeason _ _ => true
  | .tmdbSearch _ _ _ _ => true
  | .tmdbDetails _ _ => true
  | .tmdbEpisode _ _ _ _ => true
  | _ => false

def Ev.isImdbSearch : Ev → Bool
  | .imdbSearch _ _ _ => true
  | _ => false

def Ev.isTmdbEv : Ev → Bool
  | .tmdbSearch _ _ _ _ => true
  | .tmdbDetails _ _ => true
  | .tmdbEpisode _ _ _ _ => true
  | _ => false

/-- Values stored in the (heterogeneous) `IMDB_CACHE` dict: search results
(`safe_imdb_search`, optional id strings) and detail records (the inline
caching in both fetch functions, optional `Detail` dicts), sharing one
string key space exactly as in the source. -/
inductive ImdbCacheVal where
  | searchId (v : Option String)
  | detailRec (v : Option Detail)
deriving DecidableEq, Repr

/-- The module-level mutable state of `metadata.py`: the four cache dicts
(`EPISODE_CACHE` holds tuple-keyed TMDb entries and string-keyed Cinemeta
entries, which can never collide and are modelled as two components), plus
the instrumentation trace. -/
structure St where
  imdbCache : List (String × ImdbCacheVal)
  tmdbSearchCache : List (String × Option TmdbSearchResult)
  tmdbDetailsCache : List (Nat × Option TmdbDetails)
  epCacheTm : List ((Nat × Option Nat × Option Nat) × Option TmdbEpisode)
  epCacheCm : List (String × Option EpFrag)
  trace : List Ev
deriving DecidableEq, Repr

def St.emit (st : St) (e : Ev) : St := { st with trace := st.trace ++ [e] }

/-- `format_tmdb_image` (metadata.py lines 27–30). -/
def format_tmdb_image (path : String) (size : String) : String :=
  if path = "" then "" else "https://image.tmdb.org/t/p/" ++ size ++ path

/-- The English-logo scan of `get_tmdb_logo`. -/
def findEnLogo : List TmdbLogo → Option TmdbLogo
  | [] => Option.none
  | l :: rest => if l.iso_639_1 = some "en" then some l else findEnLogo rest

/-- `get_tmdb_logo` (metadata.py lines 32–41). -/
def get_tmdb_logo (images : Option TmdbImages) : String :=
  match images with
  | Option.none => ""
  | some im =>
      match im.logos with
      | Option.none => ""
      | some logos =>
          if logos = [] then ""
          else
            match findEnLogo logos with
            | some l => format_tmdb_image l.file_path "original"
            | Option.none =>
                match logos with
                | [] => ""
                | l :: _ => format_tmdb_image l.file_path "original"

structure ImdbImages where
  poster : String
  backdrop : String
  logo : String
deriving DecidableEq, Repr

/-- `format_imdb_images` (metadata.py lines 43–50).  The id is `Option` so
that an absent (`None`) id is expressible; `if not imdb_id` treats `none`
and `""` alike. -/
def format_imdb_images (imdb_id : Option String) : ImdbImages :=
  if ¬ truthyOS imdb_id then { poster := "", backdrop := "", logo := "" }
  else
    let s := imdb_id.getD ""
    { poster := "https://images.metahub.space/poster/small/" ++ s ++ "/img"
    , backdrop := "https://images.metahub.space/background/medium/" ++ s ++ "/img"
    , logo := "https://images.metahub.space/logo/medium/" ++ s ++ "/img" }

/-- One member of the TMDb credits cast loop:
`getattr(member, "name", None) or getattr(member, "original_name", None)`,
appended only if truthy. -/
def pickCastName (m : TmdbCastMember) : Option String :=
  let v := if truthyOS m.name then m.name else m.original_name
  if truthyOS v then v else Option.none

/-- The cast-name extraction shared by both TMDb return paths
(metadata.py lines 241–248 and 336–343). -/
def castNames (credits : Option TmdbCredits) : List String :=
  match credits with
  | Option.none => []
  | some c => (c.cast.getD []).filterMap pickCastName

/-- Result of `safe_imdb_search` as observed by its caller: normally an
optional id string; `dictv` is the degenerate case where the cache key
collided with an inline detail entry and the returned value is a detail
dict (the caller's subsequent `imdb_id in IMDB_CACHE` membership test then
raises `TypeError` on the unhashable dict, which the caller's `try`
swallows). -/
inductive SOut where
  | idv (v : Option String)
  | dictv (v : Option Detail)
deriving DecidableEq, Repr

def imdbSearchKey (type_ title : String) : String :=
  "imdb::" ++ type_ ++ "::" ++ title

/-- `safe_imdb_search` (metadata.py lines 52–65).  `search_title` swallows
all its exceptions, so the `except` branch here is unreachable. -/
def safe_imdb_search (w : World) (title type_ : String) (st : St) : SOut × St :=
  let key := imdbSearchKey type_ title
  match alookup key st.imdbCache with
  | some (.searchId v) => (.idv v, st.emit (.imdbSearch type_ title false))
  | some (.detailRec v) => (.dictv v, st.emit (.imdbSearch type_ title false))
  | Option.none =>
      let r := search_title w title type_
      let imdb_id := r.map (fun h => h.id)
      let st := st.emit (.imdbSearch type_ title true)
      (.idv imdb_id, { st with imdbCache := ainsert key (.searchId imdb_id) st.imdbCache })

def tmdbSearchKey (type_ title : String) (year : Option Nat) : String :=
  "tmdb_search::" ++ type_ ++ "::" ++ title ++ "::" ++ pyStrON year

/-- Python truthiness of the optional `year` int. -/
def truthyON : Option Nat → Bool
  | Option.none => false
  | Option.some n => n ≠ 0

/-- `safe_tmdb_search` (metadata.py lines 67–87).  The library call may
raise; the `except` branch caches `None`. -/
def safe_tmdb_search (w : World) (title type_ : String) (year : Option Nat) (st : St) :
    Option TmdbSearchResult × St :=
  let key := tmdbSearchKey type_ title year
  match alookup key st.tmdbSearchCache with
  | some v => (v, st.emit (.tmdbSearch type_ title year false))
  | Option.none =>
      let call : PyRes (List TmdbSearchResult) :=
        if type_ = "movie" then
          if truthyON year then w.tmdbSearchMovies title year else w.tmdbSearchMovies title Option.none
        else w.tmdbSearchTv title
      let st := st.emit (.tmdbSearch type_ title year true)
      match call with
      | .ok results =>
          let res := results.head?
          (res, { st with tmdbSearchCache := ainsert key res st.tmdbSearchCache })
      | .exn =>
          (Option.none, { st with tmdbSearchCache := ainsert key Option.none st.tmdbSearchCache })

/-- `_tmdb_tv_details` (metadata.py lines 89–100). -/
def tmdb_tv_details (w : World) (tv_id : Nat) (st : St) : Option TmdbDetails × St :=
  match alookup tv_id st.tmdbDetailsCache with
  | some v => (v, st.emit (.tmdbDetails tv_id false))
  | Option.none =>
      let st := st.emit (.tmdbDetails tv_id true)
      match w.tmdbTvDetailsApi tv_id with
      | .ok d => (some d, { st with tmdbDetailsCache := ainsert tv_id (some d) st.tmdbDetailsCache })
      | .exn => (Option.none, { st with tmdbDetailsCache := ainsert tv_id Option.none st.tmdbDetailsCache })

/-- `_tmdb_movie_details` (metadata.py lines 102–113); shares
`TMDB_DETAILS_CACHE` with the TV variant, keyed by the bare id. -/
def tmdb_movie_details (w : World) (movie_id : Nat) (st : St) : Option TmdbDetails × St :=
  match alookup movie_id st.tmdbDetailsCache with
  | some v => (v, st.emit (.tmdbDetails movie_id false))
  | Option.none =>
      let st := st.emit (.tmdbDetails movie_id true)
      match w.tmdbMovieDetailsApi movie_id with
      | .ok d => (some d, { st with tmdbDetailsCache := ainsert movie_id (some d) st.tmdbDetailsCache })
      | .exn => (Option.none, { st with tmdbDetailsCache := ainsert movie_id Option.none st.tmdbDetailsCache })

/-- `_tmdb_episode_details` (metadata.py lines 115–126). -/
def tmdb_episode_details (w : World) (tv_id : Nat) (season episode : Option Nat) (st : St) :
    Option TmdbEpisode × St :=
  let key := (tv_id, season, episode)
  match alookup key st.epCacheTm with
  | some v => (v, st.emit (.tmdbEpisode tv_id season episode false))
  | Option.none =>
      let st := st.emit (.tmdbEpisode tv_id season episode true)
      match w.tmdbEpisodeDetailsApi tv_id season episode with
      | .ok d => (some d, { st with epCacheTm := ainsert key (some d) st.epCacheTm })
      | .exn => (Option.none, { st with epCacheTm := ainsert key Option.none st.epCacheTm })

/-! ## `metadata.py` — fetch functions and single-item entry point -/

/-- Python `str(x)` for an optional string (`str(None) = "None"`), used in
the TMDb episode-title f-string when `tv_details.name` is `None`. -/
def pyStrOS : Option String → String
  | Option.none => "None"
  | Option.some s => s

def pad2 (n : Nat) : String := if n < 10 then "0" ++ toString n else toString n

def pad4 (n : Nat) : String :=
  if n < 10 then "000" ++ toString n
  else if n < 100 then "00" ++ toString n
  else if n < 1000 then "0" ++ toString n
  else toString n

/-- `air_date.strftime("%Y-%m-%dT05:00:00.000Z")`. -/
def strftimeEp (d : PyDate) : String :=
  pad4 d.y ++ "-" ++ pad2 d.m ++ "-" ++ pad2 d.d ++ "T05:00:00.000Z"

/-- The dict returned on `fetch_tv_metadata`'s TV path
(either provider shape; metadata.py lines 250–271 and 280–301). -/
structure TvMeta where
  tmdb_id : MId
  imdb_id : Option String
  title : Option String
  year : Nat
  rate : PyFloat
  description : String
  poster : String
  backdrop : String
  logo : String
  genres : List String
  media_type : String
  cast : List String
  season_number : Option Nat
  episode_number : Option Nat
  episode_title : Option String
  episode_backdrop : String
  episode_overview : Option String
  episode_released : String
  quality : Option String
  encoded_string : Option String
deriving DecidableEq, Repr

/-- The dict returned on `fetch_movie_metadata`'s paths
(metadata.py lines 344–359 and 365–380). -/
structure MovieMeta where
  tmdb_id : MId
  imdb_id : Option String
  title : Option String
  year : Nat
  rate : PyFloat
  description : String
  poster : String
  backdrop : String
  logo : String
  cast : List String
  media_type : String
  genres : List String
  quality : Option String
  encoded_string : Option String
deriving DecidableEq, Repr

/-- The TMDb-based TV return dict (metadata.py lines 250–271). -/
def tmdbShapedTv (dets : TmdbDetails) (ep : Option TmdbEpisode)
    (season episode : Option Nat) (quality encoded : Option String) : TvMeta :=
  { tmdb_id := .num dets.id
  , imdb_id := match dets.external_ids with
      | some e => e.imdb_id
      | Option.none => dets.imdb_id
  , title := dets.name
  , year := match dets.first_air_date with
      | some d => d.y
      | Option.none => 0
  , rate := rateOf dets.vote_average
  , description := dets.overview.getD ""
  , poster := format_tmdb_image dets.poster_path "w500"
  , backdrop := format_tmdb_image dets.backdrop_path "original"
  , logo := get_tmdb_logo dets.images
  , genres := (dets.genres.getD []).map TmdbGenre.name
  , media_type := "tv"
  , cast := castNames dets.credits
  , season_number := season
  , episode_number := episode
  , episode_title := match ep with
      | some e => e.name
      | Option.none => some (pyStrOS dets.name ++ " S" ++ pyStrON season ++ "E" ++ pyStrON episode)
  , episode_backdrop := match ep with
      | some e => format_tmdb_image (e.still_path.getD "") "original"
      | Option.none => ""
  , episode_overview := match ep with
      | some e => e.overview
      | Option.none => some ""
  , episode_released := match ep with
      | some e => (match e.air_date with
          | some d => strftimeEp d
          | Option.none => "")
      | Option.none => ""
  , quality := quality
  , encoded_string := encoded }

/-- The IMDb/Cinemeta-based TV return dict (metadata.py lines 277–301).
The detail dict has no `moviedb_id` key, so `tmdb_id` is always the id with
all occurrences of `"tt"` removed (or `""` for a falsy id). -/
def imdbShapedTv (d : Detail) (ep : Option EpFrag)
    (season episode : Option Nat) (quality encoded : Option String) : TvMeta :=
  let imdb_id := d.id
  let images := format_imdb_images (some imdb_id)
  { tmdb_id := .strv (if imdb_id ≠ "" then pyReplace imdb_id "tt" "" else "")
  , imdb_id := some imdb_id
  , title := some d.title
  , year := d.year
  , rate := d.star
  , description := d.plot
  , poster := images.poster
  , backdrop := images.backdrop
  , logo := images.logo
  , genres := d.genre
  , media_type := "tv"
  , cast := d.cast
  , season_number := season
  , episode_number := episode
  , episode_title := match ep with
      | some e => some e.title
      | Option.none => some (d.title ++ " S" ++ pyStrON season ++ "E" ++ pyStrON episode)
  , episode_backdrop := match ep with
      | some e => e.image
      | Option.none => ""
  , episode_overview := match ep with
      | some e => some e.plot
      | Option.none => some ""
  , episode_released := match ep with
      | some e => e.released
      | Option.none => ""
  , quality := quality
  , encoded_string := encoded }

/-- The TMDb-based movie return dict (metadata.py lines 344–359). -/
def tmdbShapedMovie (dets : TmdbDetails) (quality encoded : Option String) : MovieMeta :=
  { tmdb_id := .num dets.id
  , imdb_id := match dets.external_ids with
      | some e => e.imdb_id
      | Option.none => Option.none
  , title := dets.title
  , year := match dets.release_date with
      | some d => d.y
      | Option.none => 0
  , rate := rateOf dets.vote_average
  , description := dets.overview.getD ""
  , poster := format_tmdb_image dets.poster_path "w500"
  , backdrop := format_tmdb_image dets.backdrop_path "original"
  , logo := get_tmdb_logo dets.images
  , cast := castNames dets.credits
  , media_type := "movie"
  , genres := (dets.genres.getD []).map TmdbGenre.name
  , quality := quality
  , encoded_string := encoded }

/-- The IMDb/Cinemeta-based movie return dict (metadata.py lines 362–380). -/
def imdbShapedMovie (d : Detail) (quality encoded : Option String) : MovieMeta :=
  let imdb_id := d.id
  let images := format_imdb_images (some imdb_id)
  { tmdb_id := .strv (if imdb_id ≠ "" then pyReplace imdb_id "tt" "" else "")
  , imdb_id := some imdb_id
  , title := some d.title
  , year := d.year
  , rate := d.star
  , description := d.plot
  , poster := images.poster
  , backdrop := images.backdrop
  , logo := images.logo
  , cast := d.cast
  , media_type := "movie"
  , genres := d.genre
  , quality := quality
  , encoded_string := encoded }

/-- The value bound to `tv_details` / `movie_details` after the inline
`IMDB_CACHE` probe: a detail record, or — on a key collision with a
`safe_imdb_search` entry — a cached id string (`pois`). -/
inductive TvD where
  | det (v : Option Detail)
  | pois (v : Option String)
deriving DecidableEq, Repr

/-- The inline cached primary detail lookup
(metadata.py lines 207–212 / 311–316). -/
def imdbDetailLookup (w : World) (imdb_id : String) (st : St) : TvD × St :=
  match alookup imdb_id st.imdbCache with
  | some (.detailRec v) => (.det v, st.emit (.imdbDetail imdb_id false))
  | some (.searchId v) => (.pois v, st.emit (.imdbDetail imdb_id false))
  | Option.none =>
      let r := get_detail w imdb_id
      let st := st.emit (.imdbDetail imdb_id true)
      (.det r, { st with imdbCache := ainsert imdb_id (.detailRec r) st.imdbCache })

/-- The inline cached primary episode lookup
(metadata.py lines 213–219). -/
def imdbEpisodeLookup (w : World) (imdb_id : String) (season episode : Option Nat) (st : St) :
    Option EpFrag × St :=
  let key := imdb_id ++ "::" ++ pyStrON season ++ "::" ++ pyStrON episode
  match alookup key st.epCacheCm with
  | some v => (v, st.emit (.imdbSeason key false))
  | Option.none =>
      let r := get_season w imdb_id season episode
      let st := st.emit (.imdbSeason key true)
      (r, { st with epCacheCm := ainsert key r st.epCacheCm })

/-- The secondary-provider fallback of `fetch_tv_metadata`
(metadata.py lines 224–237 plus the TMDb return path 240–271). -/
def tvTmdbPhase (w : World) (title : String) (season episode : Option Nat)
    (quality encoded : Option String) (st : St) : PyRes (Option TvMeta) × St :=
  match safe_tmdb_search w title "tv" Option.none st with
  | (Option.none, st) => (.ok Option.none, st)
  | (some r, st) =>
      match tmdb_tv_details w r.id st with
      | (Option.none, st) => (.ok Option.none, st)
      | (some dets, st) =>
          match tmdb_episode_details w r.id season episode st with
          | (ep, st) =>
              (.ok (some (tmdbShapedTv dets ep season episode quality encoded)), st)

/-- The continuation of `fetch_tv_metadata` once `imdb_id` is bound
(metadata.py lines 202–301). -/
def tvAfterSearch (w : World) (title : String) (season episode : Option Nat)
    (quality encoded_string : Option String) : SOut → St → PyRes (Option TvMeta) × St
  | .dictv _, st =>
      -- `imdb_id` is a cached detail dict (or `None`): either falsy, or the
      -- membership test on the unhashable dict raises inside the `try`;
      -- both ways `tv_details` stays `None` and the code falls back.
      tvTmdbPhase w title season episode quality encoded_string st
  | .idv v, st =>
      if ¬ truthyOS v then
        tvTmdbPhase w title season episode quality encoded_string st
      else
        let s := v.getD ""
        let (tvd, st) := imdbDetailLookup w s st
        let (ep, st) := imdbEpisodeLookup w s season episode st
        match tvd with
        | .det (some d) =>
            (.ok (some (imdbShapedTv d ep season episode quality encoded_string)), st)
        | .det Option.none =>
            tvTmdbPhase w title season episode quality encoded_string st
        | .pois (some sv) =>
            if sv = "" then tvTmdbPhase w title season episode quality encoded_string st
            else (.exn, st)
        | .pois Option.none =>
            tvTmdbPhase w title season episode quality encoded_string st

/-- `fetch_tv_metadata` (metadata.py lines 200–301).  `PyRes.exn` is the
propagated `AttributeError` of the `.get` access on a type-confused cache
value (line 277), swallowed by every caller. -/
def fetch_tv_metadata (w : World) (title : String) (season episode : Option Nat)
    (encoded_string : Option String) (year : Option Nat) (quality : Option String)
    (default_id : Option String) (st : St) : PyRes (Option TvMeta) × St :=
  let _ := year
  let (sOut, st) :=
    if truthyOS default_id ∧ pyStartsWith (default_id.getD "") "tt" then
      (SOut.idv default_id, st)
    else safe_imdb_search w title "tvSeries" st
  tvAfterSearch w title season episode quality encoded_string sOut st

/-- The secondary-provider fallback of `fetch_movie_metadata`
(metadata.py lines 321–359).  When the details fetch yields nothing the
code reaches `movie_details.get("id", "")` on `None` (line 362) and
raises `AttributeError` — unlike the TV path there is no `return None`
guard. -/
def movieTmdbPhase (w : World) (title : String) (year : Option Nat)
    (quality encoded : Option String) (st : St) : PyRes (Option MovieMeta) × St :=
  match safe_tmdb_search w title "movie" year st with
  | (Option.none, st) => (.ok Option.none, st)
  | (some r, st) =>
      match tmdb_movie_details w r.id st with
      | (Option.none, st) => (.exn, st)
      | (some dets, st) => (.ok (some (tmdbShapedMovie dets quality encoded)), st)

/-- The continuation of `fetch_movie_metadata` once `imdb_id` is bound
(metadata.py lines 306–380). -/
def movieAfterSearch (w : World) (title : String) (year : Option Nat)
    (quality encoded_string : Option String) : SOut → St → PyRes (Option MovieMeta) × St
  | .dictv _, st =>
      movieTmdbPhase w title year quality encoded_string st
  | .idv v, st =>
      if ¬ truthyOS v then
        movieTmdbPhase w title year quality encoded_string st
      else
        let s := v.getD ""
        let (tvd, st) := imdbDetailLookup w s st
        match tvd with
        | .det (some d) => (.ok (some (imdbShapedMovie d quality encoded_string)), st)
        | .det Option.none => movieTmdbPhase w title year quality encoded_string st
        | .pois (some sv) =>
            if sv = "" then movieTmdbPhase w title year quality encoded_string st
            else (.exn, st)
        | .pois Option.none => movieTmdbPhase w title year quality encoded_string st

/-- The primary-search query of the movie path:
`f"{title} {year}" if year else title`. -/
def movieQuery (title : String) (year : Option Nat) : String :=
  match year with
  | some y => if y ≠ 0 then title ++ " " ++ toString y else title
  | Option.none => title

/-- `fetch_movie_metadata` (metadata.py lines 304–380). -/
def fetch_movie_metadata (w : World) (title : String) (encoded_string : Option String)
    (year : Option Nat) (quality : Option String) (default_id : Option String) (st : St) :
    PyRes (Option MovieMeta) × St :=
  let (sOut, st) :=
    if truthyOS default_id ∧ pyStartsWith (default_id.getD "") "tt" then
      (SOut.idv default_id, st)
    else safe_imdb_search w (movieQuery title year) "movie" st
  movieAfterSearch w title year quality encoded_string sOut st

/-- Character class `[s._-]` of the multipart pattern (case-insensitive,
so `S` matches too). -/
def sepChar (c : Char) : Bool :=
  c = 's' || c = 'S' || c = '.' || c = '_' || c = '-'

/-- `\w` (ASCII fragment). -/
def isWordChar (c : Char) : Bool := c.isAlphanum || c = '_'

/-- The lookahead `(?=\.\w+$)`: a literal dot, then one or more word
characters reaching the end of the string. -/
def extLookahead : List Char → Bool
  | '.' :: rest => rest ≠ [] && rest.all isWordChar
  | _ => false

/-- Case-insensitive literal match of `kw` at the head, returning the
remainder. -/
def matchKeyword (kw : List Char) (cs : List Char) : Option (List Char) :=
  if (cs.take kw.length).map Char.toLower = kw then some (cs.drop kw.length) else Option.none

/-- Match of `(?:part|cd|disc|disk)[s._-]*\d+(?=\.\w+$)` anchored at the
current position.  The separator and digit classes are disjoint from each
other and from the lookahead's leading dot requirement being checkable
greedily, so maximal munch is equivalent to the regex engine's
backtracking here. -/
def multipartAt (cs : List Char) : Bool :=
  [String.toList "part", String.toList "cd", String.toList "disc", String.toList "disk"].any
    (fun kw =>
      match matchKeyword kw cs with
      | Option.none => false
      | some rest =>
          let rest2 := rest.dropWhile sepChar
          let (_, n, rest3) := digitsRun rest2 0
          n > 0 && extLookahead rest3)

def multipartSearchL : List Char → Bool
  | [] => false
  | cs@(_ :: rest) => multipartAt cs || multipartSearchL rest

/-- `multipart_pattern.search(filename)` (metadata.py lines 142–143). -/
def multipartSearch (s : String) : Bool := multipartSearchL s.toList

/-- The combined-file check (metadata.py line 137):
`"excess" in parsed and any("combined" in item.lower() for item in parsed["excess"])`. -/
def combinedCheck (p : Parsed) : Bool :=
  match p.excess with
  | Option.none => false
  | some xs => xs.any (fun item => strContains (pyLower item) "combined")

/-- A value returned by the single-item entry point: one of the two fetch
dict shapes. -/
inductive MetaOut where
  | tvOut (m : TvMeta)
  | movieOut (m : MovieMeta)
deriving DecidableEq, Repr

def natOfPIL : Option PyIntL → Option Nat
  | Option.some (.intv n) => some n
  | _ => Option.none

/-- `metadata` (metadata.py lines 129–197), the single-item entry point. -/
def metadata (w : World) (filename : String) (channel msg_id : Int) (st : St) :
    Option MetaOut × St :=
  match w.ptnParse filename with
  | .exn => (Option.none, st)
  | .ok parsed =>
    if combinedCheck parsed then (Option.none, st)
    else if multipartSearch filename then (Option.none, st)
    else
      let title := parsed.title
      let season := parsed.season
      let episode := parsed.episode
      let year := parsed.year
      let quality := parsed.resolution
      if ¬ truthyOS quality then (Option.none, st)
      else if isListPIL season || isListPIL episode then (Option.none, st)
      else if truthyPIL season ∧ ¬ truthyPIL episode then (Option.none, st)
      else
        let d0 : Option String := match w.extractTmdbId w.useDefaultId with
          | .ok v => v
          | .exn => Option.none
        let default_id := if truthyOS d0 then d0
          else match w.extractTmdbId filename with
            | .ok v => v
            | .exn => d0
        if ¬ truthyOS title then (Option.none, st)
        else
          let encoded : Option String := match w.encodeString channel msg_id with
            | .ok s => some s
            | .exn => Option.none
          if truthyPIL season ∧ truthyPIL episode then
            match fetch_tv_metadata w (title.getD "") (natOfPIL season) (natOfPIL episode)
                encoded year quality default_id st with
            | (.ok r, st) => (r.map .tvOut, st)
            | (.exn, st) => (Option.none, st)
          else
            match fetch_movie_metadata w (title.getD "") encoded year quality default_id st with
            | (.ok r, st) => (r.map .movieOut, st)
            | (.exn, st) => (Option.none, st)

/-! ## `src/Backend/pyrofork/plugins/fix_metadata.py` — batch reconciler

The reconciler is embedded in the cooperative single-threaded scheduling
model the design documents itself: each unit runs to completion at its
dispatch point.  The shared cancellation flag is modelled as the stream of
values `flag : Nat → Bool` read at successive poll points (the handler
resets the global to `False` on entry, so index 0 is the first read after
the reset); `done` and the poll counter live in `FSt`.  Store writes are
recorded as trace events. -/

/-- A movie document (the fields `_safe_update_movie` reads).  `none` for
`tmdb_id`/`title` models a missing key (`doc[...]` raises `KeyError`,
caught by the unit's `except`).  List/string fields collapse
absent/`None`/empty — all falsy — to their empty value; `logo` keeps the
`None` vs `""` distinction the completeness check makes. -/
structure MovieDoc where
  tmdb_id : Option Nat
  title : Option String
  release_year : Option Nat
  cast : List String
  description : String
  genres : List String
  logo : Option String
deriving DecidableEq, Repr

structure EpDoc where
  episode_number : Option Nat
  overview : String
  released : String
  episode_backdrop : String
deriving DecidableEq, Repr

structure SeasonDoc where
  season_number : Option Nat
  episodes : List EpDoc
deriving DecidableEq, Repr

structure TvDoc where
  tmdb_id : Option Nat
  title : Option String
  release_year : Option Nat
  cast : List String
  description : String
  genres : List String
  logo : Option String
  seasons : List SeasonDoc
deriving DecidableEq, Repr

/-- One record-store shard (`storage_i`). -/
structure Shard where
  movies : List MovieDoc
  tvs : List TvDoc
deriving DecidableEq, Repr

/-- Movie completeness (fix_metadata.py line 85):
`cast and description and genres and logo not in [None, ""]`. -/
def movieComplete (d : MovieDoc) : Bool :=
  d.cast ≠ [] && d.description ≠ "" && d.genres ≠ [] &&
    (match d.logo with
     | some s => s ≠ ""
     | Option.none => false)

/-- Show-level completeness (fix_metadata.py line 138), same predicate. -/
def tvShowComplete (d : TvDoc) : Bool :=
  d.cast ≠ [] && d.description ≠ "" && d.genres ≠ [] &&
    (match d.logo with
     | some s => s ≠ ""
     | Option.none => false)

/-- Episode completeness (fix_metadata.py line 182):
`overview and released and episode_backdrop`. -/
def epComplete (e : EpDoc) : Bool :=
  e.overview ≠ "" && e.released ≠ "" && e.episode_backdrop ≠ ""

/-- The `$set` payload of the movie/show-level update. -/
def movieSetOf (m : MovieMeta) : SetFields :=
  { tmdb_id := m.tmdb_id, imdb_id := m.imdb_id, cast := m.cast
  , description := m.description, genres := m.genres, poster := m.poster
  , backdrop := m.backdrop, logo := m.logo, rating := m.rate }

def showSetOf (m : TvMeta) : SetFields :=
  { tmdb_id := m.tmdb_id, imdb_id := m.imdb_id, cast := m.cast
  , description := m.description, genres := m.genres, poster := m.poster
  , backdrop := m.backdrop, logo := m.logo, rating := m.rate }

def epSetOf (m : TvMeta) : EpSetFields :=
  { overview := m.episode_overview, released := m.episode_released
  , backdrop := m.episode_backdrop }

/-- Reconciler-run state: the metadata module state (caches + trace), the
`DONE` counter, and the number of cancellation-flag polls made so far. -/
structure FSt where
  mst : St
  done : Nat
  poll : Nat
deriving Repr

def FSt.emit (f : FSt) (e : Ev) : FSt := { f with mst := f.mst.emit e }

/-- Read the cancellation flag (one poll point). -/
def pollFlag (flag : Nat → Bool) (f : FSt) : Bool × FSt :=
  (flag f.poll, { f with poll := f.poll + 1 })

/-- `_safe_update_movie` (fix_metadata.py lines 78–121). -/
def safe_update_movie (w : World) (flag : Nat → Bool) (shard : Nat) (doc : MovieDoc)
    (f : FSt) : FSt :=
  let stamp := f.poll
  let (b, f) := pollFlag flag f
  if b then f
  else
    let f := f.emit (.unitStarted .movie stamp)
    if movieComplete doc then { f with done := f.done + 1 }
    else
      match doc.tmdb_id with
      | Option.none => { f with done := f.done + 1 }
      | some tid =>
          match doc.title with
          | Option.none => { f with done := f.done + 1 }
          | some ttl =>
              let (r, mst) := fetch_movie_metadata w ttl Option.none doc.release_year
                Option.none Option.none f.mst
              let f := { f with mst := mst }
              match r with
              | .ok (some meta) =>
                  let f := f.emit (.updateMovie shard tid (movieSetOf meta))
                  { f with done := f.done + 1 }
              | .ok Option.none => { f with done := f.done + 1 }
              | .exn => { f with done := f.done + 1 }

/-- The per-season/per-episode task-building loops of `_safe_update_tv`
(fix_metadata.py lines 167–214): collect `(season_number, episode_number)`
for each incomplete episode, polling the flag per season and per episode
(an inner break falls through to the next season's check). -/
def buildEpTasksInner (flag : Nat → Bool) (s : Option Nat) (eps : List EpDoc) (f : FSt) :
    List (Option Nat × Option Nat) × FSt :=
  match eps with
  | [] => ([], f)
  | ep :: rest =>
      let (b, f) := pollFlag flag f
      if b then ([], f)
      else if epComplete ep then buildEpTasksInner flag s rest f
      else
        let (l, f) := buildEpTasksInner flag s rest f
        ((s, ep.episode_number) :: l, f)

def buildEpTasks (flag : Nat → Bool) (seasons : List SeasonDoc) (f : FSt) :
    List (Option Nat × Option Nat) × FSt :=
  match seasons with
  | [] => ([], f)
  | sd :: rest =>
      let (b, f) := pollFlag flag f
      if b then ([], f)
      else
        let (l1, f) := buildEpTasksInner flag sd.season_number sd.episodes f
        let (l2, f) := buildEpTasks flag rest f
        (l1 ++ l2, f)

/-- `ep_task` (fix_metadata.py lines 185–212): one episode-level resolution;
its own `except` isolates failures from sibling tasks.  `stamp` is the
poll index of the wave check that admitted this task's batch. -/
def epTask (w : World) (shard tid : Nat) (title : String) (year : Option Nat)
    (stamp : Nat) (t : Option Nat × Option Nat) (f : FSt) : FSt :=
  let f := f.emit (.unitStarted .episode stamp)
  let (r, mst) := fetch_tv_metadata w title t.1 t.2 Option.none year Option.none Option.none f.mst
  let f := { f with mst := mst }
  match r with
  | .ok (some m) => f.emit (.updateEpisode shard tid t.1 t.2 (epSetOf m))
  | .ok Option.none => f
  | .exn => f

/-- Split into waves of `CONCURRENCY = 20`. -/
def chunks20 {α : Type} : List α → List (List α)
  | [] => []
  | l@(_ :: _) => l.take 20 :: chunks20 (l.drop 20)
termination_by l => l.length
decreasing_by
  rename_i h
  subst h
  simp [List.length_drop]
  omega

def runEpBatch (w : World) (shard tid : Nat) (title : String) (year : Option Nat)
    (stamp : Nat) (batch : List (Option Nat × Option Nat)) (f : FSt) : FSt :=
  batch.foldl (fun f t => epTask w shard tid title year stamp t f) f

/-- The wave loop (fix_metadata.py lines 217–222): flag checked before each
batch of 20. -/
def runEpWavesGo (w : World) (flag : Nat → Bool) (shard tid : Nat) (title : String)
    (year : Option Nat) : List (List (Option Nat × Option Nat)) → FSt → FSt
  | [], f => f
  | batch :: rest, f =>
      let stamp := f.poll
      let (b, f) := pollFlag flag f
      if b then f
      else runEpWavesGo w flag shard tid title year rest
        (runEpBatch w shard tid title year stamp batch f)

def runEpWaves (w : World) (flag : Nat → Bool) (shard tid : Nat) (title : String)
    (year : Option Nat) (tasks : List (Option Nat × Option Nat)) (f : FSt) : FSt :=
  if tasks = [] then f
  else runEpWavesGo w flag shard tid title year (chunks20 tasks) f

/-- `_safe_update_tv` (fix_metadata.py lines 126–228). -/
def safe_update_tv (w : World) (flag : Nat → Bool) (shard : Nat) (doc : TvDoc)
    (f : FSt) : FSt :=
  let stamp := f.poll
  let (b, f) := pollFlag flag f
  if b then f
  else
    let f := f.emit (.unitStarted .tv stamp)
    match doc.tmdb_id with
    | Option.none => { f with done := f.done + 1 }
    | some tid =>
        match doc.title with
        | Option.none => { f with done := f.done + 1 }
        | some ttl =>
            let (f, raised) :=
              if ¬ tvShowComplete doc then
                let (r, mst) := fetch_tv_metadata w ttl (some 1) (some 1) Option.none
                  doc.release_year Option.none Option.none f.mst
                let f := { f with mst := mst }
                match r with
                | .ok (some m) => (f.emit (.updateShow shard tid (showSetOf m)), false)
                | .ok Option.none => (f, false)
                | .exn => (f, true)
              else (f, false)
            if raised then { f with done := f.done + 1 }
            else
              let (tasks, f) := buildEpTasks flag doc.seasons f
              let f := runEpWaves w flag shard tid ttl doc.release_year tasks f
              { f with done := f.done + 1 }

/-- Run the accumulated movie units of one gather (fix_metadata.py
lines 248/252). -/
def runPendingMovies (w : World) (flag : Nat → Bool)
    (pending : List (Nat × MovieDoc)) (f : FSt) : FSt :=
  pending.foldl (fun f p => safe_update_movie w flag p.1 p.2 f) f

/-- The cursor loop of `update_movies` over one shard: poll per record,
submit in chunks of `CONCURRENCY * 2 = 40`. -/
def movieDocLoop (w : World) (flag : Nat → Bool) (shard : Nat) (docs : List MovieDoc)
    (pending : List (Nat × MovieDoc)) (f : FSt) : List (Nat × MovieDoc) × FSt :=
  match docs with
  | [] => (pending, f)
  | doc :: rest =>
      let (b, f) := pollFlag flag f
      if b then (pending, f)
      else
        let pending := pending ++ [(shard, doc)]
        if pending.length ≥ 40 then
          movieDocLoop w flag shard rest [] (runPendingMovies w flag pending f)
        else movieDocLoop w flag shard rest pending f

/-- The shard loop of `update_movies` (the pending chunk persists across
shards; a cancelled cursor loop falls through to the next shard's check). -/
def movieShardLoop (w : World) (flag : Nat → Bool) (shards : List Shard) (i : Nat)
    (pending : List (Nat × MovieDoc)) (f : FSt) : List (Nat × MovieDoc) × FSt :=
  match shards with
  | [] => (pending, f)
  | sh :: rest =>
      let (b, f) := pollFlag flag f
      if b then (pending, f)
      else
        let (pending, f) := movieDocLoop w flag i sh.movies pending f
        movieShardLoop w flag rest (i + 1) pending f

/-- `update_movies` (fix_metadata.py lines 233–252). -/
def update_movies (w : World) (flag : Nat → Bool) (shards : List Shard) (f : FSt) : FSt :=
  let (pending, f) := movieShardLoop w flag shards 1 [] f
  runPendingMovies w flag pending f

def runPendingTv (w : World) (flag : Nat → Bool)
    (pending : List (Nat × TvDoc)) (f : FSt) : FSt :=
  pending.foldl (fun f p => safe_update_tv w flag p.1 p.2 f) f

def tvDocLoop (w : World) (flag : Nat → Bool) (shard : Nat) (docs : List TvDoc)
    (pending : List (Nat × TvDoc)) (f : FSt) : List (Nat × TvDoc) × FSt :=
  match docs with
  | [] => (pending, f)
  | doc :: rest =>
      let (b, f) := pollFlag flag f
      if b then (pending, f)
      else
        let pending := pending ++ [(shard, doc)]
        if pending.length ≥ 40 then
          tvDocLoop w flag shard rest [] (runPendingTv w flag pending f)
        else tvDocLoop w flag shard rest pending f

def tvShardLoop (w : World) (flag : Nat → Bool) (shards : List Shard) (i : Nat)
    (pending : List (Nat × TvDoc)) (f : FSt) : List (Nat × TvDoc) × FSt :=
  match shards with
  | [] => (pending, f)
  | sh :: rest =>
      let (b, f) := pollFlag flag f
      if b then (pending, f)
      else
        let (pending, f) := tvDocLoop w flag i sh.tvs pending f
        tvShardLoop w flag rest (i + 1) pending f

/-- `update_tv` (fix_metadata.py lines 257–276). -/
def update_tv (w : World) (flag : Nat → Bool) (shards : List Shard) (f : FSt) : FSt :=
  let (pending, f) := tvShardLoop w flag shards 1 [] f
  runPendingTv w flag pending f

/-- `fix_metadata_handler` (fix_metadata.py lines 47–297): count totals,
movies pass, flag check, shows pass, flag check, completion report. -/
def fix_metadata_handler (w : World) (flag : Nat → Bool) (shards : List Shard)
    (st : St) : FSt :=
  let total := shards.foldl (fun a sh => a + sh.movies.length + sh.tvs.length) 0
  let f : FSt := { mst := st, done := 0, poll := 0 }
  let f := update_movies w flag shards f
  let (b, f) := pollFlag flag f
  let f := if b then f else update_tv w flag shards f
  let (b2, f) := pollFlag flag f
  if b2 then f
  else f.emit (.report f.done total w.elapsed)

/-! ## Theorems -/

/-- Spec-side predicate: four consecutive decimal digits start at index `i`. -/
def runAt (cs : List Char) (i : Nat) : Bool :=
  match cs.drop i with
  | c1 :: c2 :: c3 :: c4 :: _ => c1.isDigit && c2.isDigit && c3.isDigit && c4.isDigit
  | _ => false

/-- Numeric value of a digit string. -/
def digitsVal (cs : List Char) : Nat :=
  cs.foldl (fun a c => a * 10 + (c.toNat - '0'.toNat)) 0

theorem runAt_succ (c : Char) (cs : List Char) (i : Nat) :
    runAt (c :: cs) (i + 1) = runAt cs i := by
  simp [runAt]

theorem runAt_of_short (cs : List Char) (i : Nat) (h : cs.length < i + 4) :
    runAt cs i = false := by
  have hlen : (cs.drop i).length < 4 := by
    simp [List.length_drop]
    omega
  unfold runAt
  split
  · rename_i c1 c2 c3 c4 rest heq
    rw [heq] at hlen
    simp at hlen
    omega
  · rfl

theorem digit_toNat_le (c : Char) (h : c.isDigit = true) :
    c.toNat - '0'.toNat ≤ 9 := by
  have h' : ('0' ≤ c ∧ c ≤ '9') := by simpa [Char.isDigit] using h
  have h2 : c.toNat ≤ ('9' : Char).toNat := h'.2
  have e9 : ('9' : Char).toNat = 57 := rfl
  have e0 : ('0' : Char).toNat = 48 := rfl
  omega

/-- Unfolding equation for the scanner on a list of length ≥ 4. -/
theorem firstYearRunL_cons4 (c1 c2 c3 c4 : Char) (tail : List Char) :
    firstYearRunL (c1 :: c2 :: c3 :: c4 :: tail) =
      (if c1.isDigit && c2.isDigit && c3.isDigit && c4.isDigit then
        some (((c1.toNat - '0'.toNat) * 10 + (c2.toNat - '0'.toNat)) * 100
              + (c3.toNat - '0'.toNat) * 10 + (c4.toNat - '0'.toNat))
      else firstYearRunL (c2 :: c3 :: c4 :: tail)) := rfl

theorem firstYearRunL_eq_none (cs : List Char)
    (h : ∀ i, runAt cs i = false) : firstYearRunL cs = Option.none := by
  induction cs with
  | nil => rfl
  | cons c1 rest ih =>
      match hr : rest with
      | [] => rfl
      | [c2] => rfl
      | [c2, c3] => rfl
      | c2 :: c3 :: c4 :: tail =>
          subst hr
          have hd : (c1.isDigit && c2.isDigit && c3.isDigit && c4.isDigit) = false := by
            simpa [runAt] using h 0
          have hrest : firstYearRunL (c2 :: c3 :: c4 :: tail) = Option.none := by
            apply ih
            intro i
            simpa [runAt_succ] using h (i + 1)
          rw [firstYearRunL_cons4, if_neg (by simp [hd]), hrest]

theorem firstYearRunL_none_runAt (cs : List Char)
    (h : firstYearRunL cs = Option.none) : ∀ i, runAt cs i = false := by
  induction cs with
  | nil => intro i; exact runAt_of_short _ _ (by simp)
  | cons c1 rest ih =>
      match hr : rest with
      | [] => intro i; exact runAt_of_short _ _ (by simp)
      | [c2] => intro i; exact runAt_of_short _ _ (by simp)
      | [c2, c3] => intro i; exact runAt_of_short _ _ (by simp)
      | c2 :: c3 :: c4 :: tail =>
          subst hr
          rw [firstYearRunL_cons4] at h
          by_cases hd : (c1.isDigit && c2.isDigit && c3.isDigit && c4.isDigit) = true
          · rw [if_pos hd] at h; simp at h
          · have hd' : (c1.isDigit && c2.isDigit && c3.isDigit && c4.isDigit) = false := by
              simpa using hd
            rw [if_neg (by simp [hd'])] at h
            intro i
            match i with
            | 0 => simpa [runAt] using hd'
            | i' + 1 => simpa [runAt_succ] using ih h i'

theorem firstYearRunL_eq_some (cs : List Char) (v : Nat)
    (h : firstYearRunL cs = some v) :
    ∃ i, runAt cs i = true ∧ (∀ j, j < i → runAt cs j = false) ∧
      v = digitsVal (List.take 4 (List.drop i cs)) := by
  induction cs with
  | nil => simp [firstYearRunL] at h
  | cons c1 rest ih =>
      match hr : rest with
      | [] => subst hr; simp [firstYearRunL] at h
      | [c2] => subst hr; simp [firstYearRunL] at h
      | [c2, c3] => subst hr; simp [firstYearRunL] at h
      | c2 :: c3 :: c4 :: tail =>
          subst hr
          rw [firstYearRunL_cons4] at h
          by_cases hd : (c1.isDigit && c2.isDigit && c3.isDigit && c4.isDigit) = true
          · rw [if_pos hd] at h
            have hv := Option.some.inj h
            refine ⟨0, ?_, ?_, ?_⟩
            · simpa [runAt] using hd
            · intro j hj; omega
            · rw [← hv]
              simp [digitsVal, List.foldl]
              omega
          · have hd' : (c1.isDigit && c2.isDigit && c3.isDigit && c4.isDigit) = false := by
              simpa using hd
            rw [if_neg (by simp [hd'])] at h
            obtain ⟨i, h1, h2, h3⟩ := ih h
            refine ⟨i + 1, ?_, ?_, ?_⟩
            · simpa [runAt_succ] using h1
            · intro j hj
              match j with
              | 0 => simpa [runAt] using hd'
              | j' + 1 =>
                  have : j' < i := by omega
                  simpa [runAt_succ] using h2 j' this
            · simpa [List.drop] using h3

theorem firstYearRunL_le (cs : List Char) (v : Nat)
    (h : firstYearRunL cs = some v) : v ≤ 9999 := by
  induction cs with
  | nil => simp [firstYearRunL] at h
  | cons c1 rest ih =>
      match hr : rest with
      | [] => subst hr; simp [firstYearRunL] at h
      | [c2] => subst hr; simp [firstYearRunL] at h
      | [c2, c3] => subst hr; simp [firstYearRunL] at h
      | c2 :: c3 :: c4 :: tail =>
          subst hr
          rw [firstYearRunL_cons4] at h
          by_cases hd : (c1.isDigit && c2.isDigit && c3.isDigit && c4.isDigit) = true
          · rw [if_pos hd] at h
            have hv := Option.some.inj h
            obtain ⟨⟨⟨hb1, hb2⟩, hb3⟩, hb4⟩ := by
              simpa [Bool.and_eq_true] using hd
            have d1 := digit_toNat_le c1 hb1
            have d2 := digit_toNat_le c2 hb2
            have d3 := digit_toNat_le c3 hb3
            have d4 := digit_toNat_le c4 hb4
            omega
          · have hd' : (c1.isDigit && c2.isDigit && c3.isDigit && c4.isDigit) = false := by
              simpa using hd
            rw [if_neg (by simp [hd'])] at h
            exact ih h

/-- **C3.** Year extraction tolerates decorated strings by taking the
leftmost 4-digit run, yields `0` for an absent input or an input with no
4-digit run, and — being a total function over the modelled Python value
universe — never raises.  The three concrete cases are the spec's own
examples; the two general clauses characterise the result against the
spec-side `runAt`/`digitsVal` description (position quantifiers are bounded
by the string length; `runAt` is false beyond it). -/
theorem C3_year_extraction :
    extract_first_year (.str "2019–2021") = 2019 ∧
    extract_first_year .none = 0 ∧
    extract_first_year (.str "N/A") = 0 ∧
    (∀ s : String, (∀ i, i < s.toList.length → runAt s.toList i = false) →
      extract_first_year (.str s) = 0) ∧
    (∀ s : String, ∀ i, runAt s.toList i = true → (∀ j, j < i → runAt s.toList j = false) →
      extract_first_year (.str s) = digitsVal (List.take 4 (List.drop i s.toList))) := by
  refine ⟨by decide, rfl, by decide, ?_, ?_⟩
  · intro s h
    have hall : ∀ i, runAt s.toList i = false := by
      intro i
      by_cases hi : i < s.toList.length
      · exact h i hi
      · exact runAt_of_short _ _ (by omega)
    have hnone : firstYearRunL s.toList = Option.none := firstYearRunL_eq_none _ hall
    by_cases hs : s = ""
    · subst hs; decide
    · simp only [extract_first_year, PyVal.truthy, PyVal.toStr]
      rw [if_neg (by simpa using hs)]
      rw [show firstYearRun s = Option.none from hnone]
  · intro s i h1 h2
    have hne : s.toList ≠ [] := by
      intro hnil
      rw [show runAt s.toList i = false from
        (by rw [hnil]; exact runAt_of_short _ _ (by simp))] at h1
      exact Bool.false_ne_true h1
    have hs : s ≠ "" := by
      intro hse
      apply hne
      rw [hse]
      rfl
    cases hfy : firstYearRunL s.toList with
    | none =>
        have := firstYearRunL_none_runAt _ hfy i
        rw [this] at h1
        exact absurd h1 (by simp)
    | some v =>
        obtain ⟨i', g1, g2, g3⟩ := firstYearRunL_eq_some _ _ hfy
        have hii : i = i' := by
          rcases Nat.lt_trichotomy i i' with hlt | heq | hgt
          · rw [g2 i hlt] at h1; exact absurd h1 (by simp)
          · exact heq
          · rw [h2 i' hgt] at g1; exact absurd g1 (by simp)
        subst hii
        simp only [extract_first_year, PyVal.truthy, PyVal.toStr]
        rw [if_neg (by simpa using hs)]
        rw [show firstYearRun s = some v from hfy, g3]

/-- **C3 witness**: the general clauses applied at concrete inputs
(`"x12y2021z1999ab"` has its leftmost 4-digit run `2021` at index 4;
`"12a345"` has no 4-digit run). -/
theorem C3_year_extraction_witness :
    extract_first_year (.str "12a345") = 0 ∧
    extract_first_year (.str "x12y2021z1999ab") =
      digitsVal (List.take 4 (List.drop 4 (String.toList "x12y2021z1999ab"))) := by
  constructor
  · exact C3_year_extraction.2.2.2.1 "12a345" (by decide)
  · exact C3_year_extraction.2.2.2.2 "x12y2021z1999ab" 4 (by decide) (by decide)

/-- **C9.** Year extraction is total over the modelled Python value
universe (string, `None`, int, bool) and its result is a natural number at
most `9999`: the input is coerced with `str(...)` and only a 4-digit run is
ever converted to an integer. -/
theorem C9_year_extraction_range (v : PyVal) :
    extract_first_year v ≤ 9999 := by
  unfold extract_first_year
  split
  · omega
  · cases hfy : firstYearRun v.toStr with
    | none => simp
    | some y =>
        simp only [hfy]
        exact firstYearRunL_le _ _ hfy

/-- **C10.** The derived primary-provider image URL constructor returns all
three URLs empty when the external id is empty or absent, and embeds a
non-empty id into the three fixed templates. -/
theorem C10_derived_image_urls :
    format_imdb_images Option.none = { poster := "", backdrop := "", logo := "" } ∧
    format_imdb_images (some "") = { poster := "", backdrop := "", logo := "" } ∧
    (∀ s : String, s ≠ "" → format_imdb_images (some s) =
      { poster := "https://images.metahub.space/poster/small/" ++ s ++ "/img"
      , backdrop := "https://images.metahub.space/background/medium/" ++ s ++ "/img"
      , logo := "https://images.metahub.space/logo/medium/" ++ s ++ "/img" }) := by
  refine ⟨rfl, rfl, ?_⟩
  intro s hs
  simp [format_imdb_images, truthyOS, hs]

/-- **C10 witness**: the non-empty clause at `"tt0944947"`. -/
theorem C10_derived_image_urls_witness :
    format_imdb_images (some "tt0944947") =
      { poster := "https://images.metahub.space/poster/small/tt0944947/img"
      , backdrop := "https://images.metahub.space/background/medium/tt0944947/img"
      , logo := "https://images.metahub.space/logo/medium/tt0944947/img" } :=
  C10_derived_image_urls.2.2 "tt0944947" (by decide)

/-- **C6.** For every identifier the primary detail lookup probes the
`movie` sub-resource before `series` and returns the normalized record of
the first probe that yields one; it is absent exactly when both probes
fail (a probe "fails" on non-200, missing `meta`, or a payload whose
normalization raises — the spec's "malformed payload" case). -/
theorem C6_detail_probe_order (w : World) (id : String) :
    (∀ d, probeOne w "movie" id = some d → get_detail w id = some d) ∧
    (probeOne w "movie" id = Option.none → get_detail w id = probeOne w "series" id) ∧
    (get_detail w id = Option.none ↔
      probeOne w "movie" id = Option.none ∧ probeOne w "series" id = Option.none) := by
  cases hm : probeOne w "movie" id with
  | some d =>
      refine ⟨?_, ?_, ?_⟩
      · intro d' hd'
        cases hd'
        simp [get_detail, get_detail_loop, hm]
      · intro hc; simp at hc
      · simp [get_detail, get_detail_loop, hm]
  | none =>
      cases hs : probeOne w "series" id with
      | some d =>
          refine ⟨?_, ?_, ?_⟩
          · intro d' hd'; simp at hd'
          · intro _; simp [get_detail, get_detail_loop, hm, hs]
          · simp [get_detail, get_detail_loop, hm, hs]
      | none =>
          refine ⟨?_, ?_, ?_⟩
          · intro d' hd'; simp at hd'
          · intro _; simp [get_detail, get_detail_loop, hm, hs]
          · simp [get_detail, get_detail_loop, hm, hs]

/-- A provider world where nothing responds (everything transport-fails). -/
def w0 : World :=
  { cinemetaCatalog := fun _ _ => Option.none
  , cinemetaMeta := fun _ _ => Option.none
  , tmdbSearchMovies := fun _ _ => .exn
  , tmdbSearchTv := fun _ => .exn
  , tmdbTvDetailsApi := fun _ => .exn
  , tmdbMovieDetailsApi := fun _ => .exn
  , tmdbEpisodeDetailsApi := fun _ _ _ => .exn
  , ptnParse := fun _ => .exn
  , extractTmdbId := fun _ => .ok Option.none
  , useDefaultId := ""
  , encodeString := fun _ _ => .exn
  , elapsed := 0 }

/-- The empty initial module state. -/
def st0 : St :=
  { imdbCache := [], tmdbSearchCache := [], tmdbDetailsCache := []
  , epCacheTm := [], epCacheCm := [], trace := [] }

/-- A series `meta` payload used by the concrete scenarios: show `ShowX`
with only S1E1 listed under `videos`. -/
def vid11 : VideoObj :=
  { season := "1", episode := "1", title := some "Pilot"
  , thumbnail := some "thumb1", overview := some "pilot overview"
  , released := some "2019-01-05T05:00:00.000Z" }

def mX : MetaObj :=
  { imdb_id := some "tt1", id := Option.none, mtype := some "series"
  , name := some "ShowX", description := some "A show."
  , genres := some ["Drama"], genre := Option.none
  , year := some "2019–2021", releaseInfo := Option.none, released := Option.none
  , imdbRating := some "7.9"
  , poster := some "posterX", background := some "bgX", logo := some "logoX"
  , runtime := Option.none, director := Option.none, cast := some ["A", "B"]
  , videos := some [vid11] }

/-- The normalized record `probeOne`/`get_detail` produce from `mX`. -/
def dX : Detail :=
  { id := "tt1", dtype := "series", title := "ShowX", plot := "A show."
  , genre := ["Drama"], year := 2019, star := { num := 79, den := 10 }
  , poster := "posterX", background := "bgX", logo := "logoX", runtime := ""
  , director := [], cast := ["A", "B"], videos := [vid11] }

/-- World for the TV scenarios: primary search finds `tt1`, the `movie`
sub-resource 404s, the `series` sub-resource yields `mX`, and the
secondary provider would succeed if consulted. -/
def cw1 : World :=
  { w0 with
    cinemetaCatalog := fun ty q =>
      if ty = "series" ∧ q = "X" then
        some [{ imdb_id := some "tt1", id := Option.none, name := some "ShowX"
              , releaseInfo := some "2019", poster := some "p" }]
      else Option.none
  , cinemetaMeta := fun ty id =>
      if ty = "series" ∧ id = "tt1" then some mX else Option.none
  , tmdbSearchTv := fun _ => .ok [{ id := 77 }]
  , tmdbTvDetailsApi := fun _ =>
      .ok { id := 77, external_ids := some { imdb_id := some "tt1" }
          , imdb_id := Option.none, name := some "ShowX", title := Option.none
          , first_air_date := some { y := 2019, m := 1, d := 5 }
          , release_date := Option.none, vote_average := some { num := 81, den := 10 }
          , overview := some "tmdb overview", poster_path := "/p.jpg"
          , backdrop_path := "/b.jpg", images := Option.none
          , genres := some [{ name := "Drama" }], credits := Option.none }
  , tmdbEpisodeDetailsApi := fun _ _ _ => .exn }

/-- **C6 witness**: the movie-probe-fails clause applied at `cw1`/`tt1`:
the detail lookup returns the series-probe record. -/
theorem C6_detail_probe_order_witness :
    get_detail cw1 "tt1" = some dX := by
  have h := (C6_detail_probe_order cw1 "tt1").2.1 (by decide)
  rw [h]
  decide

@[simp] theorem emit_imdbCache (st : St) (e : Ev) : (st.emit e).imdbCache = st.imdbCache := rfl

@[simp] theorem emit_tmdbSearchCache (st : St) (e : Ev) :
    (st.emit e).tmdbSearchCache = st.tmdbSearchCache := rfl

@[simp] theorem emit_tmdbDetailsCache (st : St) (e : Ev) :
    (st.emit e).tmdbDetailsCache = st.tmdbDetailsCache := rfl

@[simp] theorem emit_epCacheTm (st : St) (e : Ev) : (st.emit e).epCacheTm = st.epCacheTm := rfl

@[simp] theorem emit_epCacheCm (st : St) (e : Ev) : (st.emit e).epCacheCm = st.epCacheCm := rfl

@[simp] theorem emit_trace (st : St) (e : Ev) : (st.emit e).trace = st.trace ++ [e] := rfl

/-- How `safe_imdb_search` stores its outcome in the heterogeneous cache. -/
def soutStored : SOut → ImdbCacheVal
  | .idv v => .searchId v
  | .dictv v => .detailRec v

theorem safe_imdb_search_cache (w : World) (title ty : String) (st : St) :
    alookup (imdbSearchKey ty title) (safe_imdb_search w title ty st).2.imdbCache
      = some (soutStored (safe_imdb_search w title ty st).1) ∧
    ∃ e, safe_imdb_search w title ty (safe_imdb_search w title ty st).2
        = ((safe_imdb_search w title ty st).1, (safe_imdb_search w title ty st).2.emit e)
      ∧ e.isOutbound = false := by
  cases h : alookup (imdbSearchKey ty title) st.imdbCache with
  | some val =>
      cases val with
      | searchId v =>
          refine ⟨?_, ⟨.imdbSearch ty title false, ?_, rfl⟩⟩ <;>
            simp [safe_imdb_search, h, soutStored]
      | detailRec v =>
          refine ⟨?_, ⟨.imdbSearch ty title false, ?_, rfl⟩⟩ <;>
            simp [safe_imdb_search, h, soutStored]
  | none =>
      refine ⟨?_, ⟨.imdbSearch ty title false, ?_, rfl⟩⟩ <;>
        simp [safe_imdb_search, h, soutStored]

theorem safe_tmdb_search_cache (w : World) (title ty : String) (y : Option Nat) (st : St) :
    alookup (tmdbSearchKey ty title y) (safe_tmdb_search w title ty y st).2.tmdbSearchCache
      = some (safe_tmdb_search w title ty y st).1 ∧
    ∃ e, safe_tmdb_search w title ty y (safe_tmdb_search w title ty y st).2
        = ((safe_tmdb_search w title ty y st).1, (safe_tmdb_search w title ty y st).2.emit e)
      ∧ e.isOutbound = false := by
  cases h : alookup (tmdbSearchKey ty title y) st.tmdbSearchCache with
  | some val =>
      refine ⟨?_, ⟨.tmdbSearch ty title y false, ?_, rfl⟩⟩ <;>
        simp [safe_tmdb_search, h]
  | none =>
      cases hc : (if ty = "movie" then
          (if truthyON y then w.tmdbSearchMovies title y else w.tmdbSearchMovies title Option.none)
        else w.tmdbSearchTv title) with
      | ok results =>
          refine ⟨?_, ⟨.tmdbSearch ty title y false, ?_, rfl⟩⟩ <;>
            simp [safe_tmdb_search, h, hc]
      | exn =>
          refine ⟨?_, ⟨.tmdbSearch ty title y false, ?_, rfl⟩⟩ <;>
            simp [safe_tmdb_search, h, hc]

theorem tmdb_tv_details_cache (w : World) (tv_id : Nat) (st : St) :
    alookup tv_id (tmdb_tv_details w tv_id st).2.tmdbDetailsCache
      = some (tmdb_tv_details w tv_id st).1 ∧
    ∃ e, tmdb_tv_details w tv_id (tmdb_tv_details w tv_id st).2
        = ((tmdb_tv_details w tv_id st).1, (tmdb_tv_details w tv_id st).2.emit e)
      ∧ e.isOutbound = false := by
  cases h : alookup tv_id st.tmdbDetailsCache with
  | some val =>
      refine ⟨?_, ⟨.tmdbDetails tv_id false, ?_, rfl⟩⟩ <;> simp [tmdb_tv_details, h]
  | none =>
      cases hc : w.tmdbTvDetailsApi tv_id with
      | ok d =>
          refine ⟨?_, ⟨.tmdbDetails tv_id false, ?_, rfl⟩⟩ <;> simp [tmdb_tv_details, h, hc]
      | exn =>
          refine ⟨?_, ⟨.tmdbDetails tv_id false, ?_, rfl⟩⟩ <;> simp [tmdb_tv_details, h, hc]

theorem tmdb_movie_details_cache (w : World) (movie_id : Nat) (st : St) :
    alookup movie_id (tmdb_movie_details w movie_id st).2.tmdbDetailsCache
      = some (tmdb_movie_details w movie_id st).1 ∧
    ∃ e, tmdb_movie_details w movie_id (tmdb_movie_details w movie_id st).2
        = ((tmdb_movie_details w movie_id st).1, (tmdb_movie_details w movie_id st).2.emit e)
      ∧ e.isOutbound = false := by
  cases h : alookup movie_id st.tmdbDetailsCache with
  | some val =>
      refine ⟨?_, ⟨.tmdbDetails movie_id false, ?_, rfl⟩⟩ <;> simp [tmdb_movie_details, h]
  | none =>
      cases hc : w.tmdbMovieDetailsApi movie_id with
      | ok d =>
          refine ⟨?_, ⟨.tmdbDetails movie_id false, ?_, rfl⟩⟩ <;>
            simp [tmdb_movie_details, h, hc]
      | exn =>
          refine ⟨?_, ⟨.tmdbDetails movie_id false, ?_, rfl⟩⟩ <;>
            simp [tmdb_movie_details, h, hc]

theorem tmdb_episode_details_cache (w : World) (tv_id : Nat) (s e' : Option Nat) (st : St) :
    alookup (tv_id, s, e') (tmdb_episode_details w tv_id s e' st).2.epCacheTm
      = some (tmdb_episode_details w tv_id s e' st).1 ∧
    ∃ e, tmdb_episode_details w tv_id s e' (tmdb_episode_details w tv_id s e' st).2
        = ((tmdb_episode_details w tv_id s e' st).1, (tmdb_episode_details w tv_id s e' st).2.emit e)
      ∧ e.isOutbound = false := by
  cases h : alookup (tv_id, s, e') st.epCacheTm with
  | some val =>
      refine ⟨?_, ⟨.tmdbEpisode tv_id s e' false, ?_, rfl⟩⟩ <;>
        simp [tmdb_episode_details, h]
  | none =>
      cases hc : w.tmdbEpisodeDetailsApi tv_id s e' with
      | ok d =>
          refine ⟨?_, ⟨.tmdbEpisode tv_id s e' false, ?_, rfl⟩⟩ <;>
            simp [tmdb_episode_details, h, hc]
      | exn =>
          refine ⟨?_, ⟨.tmdbEpisode tv_id s e' false, ?_, rfl⟩⟩ <;>
            simp [tmdb_episode_details, h, hc]

/-- **C2.** Every cached lookup operation (primary search, secondary
search, TV/movie detail, episode detail) leaves the probed key mapped in
its cache to the outcome it returned — an `absent` outcome included —
and an immediately repeated call with identical inputs returns that same
outcome while changing the state only by one *non-outbound* trace event
(so no second provider call is made). -/
theorem C2_memoization :
    (∀ (w : World) (title ty : String) (st : St),
      alookup (imdbSearchKey ty title) (safe_imdb_search w title ty st).2.imdbCache
        = some (soutStored (safe_imdb_search w title ty st).1) ∧
      ∃ e, safe_imdb_search w title ty (safe_imdb_search w title ty st).2
          = ((safe_imdb_search w title ty st).1, (safe_imdb_search w title ty st).2.emit e)
        ∧ e.isOutbound = false) ∧
    (∀ (w : World) (title ty : String) (y : Option Nat) (st : St),
      alookup (tmdbSearchKey ty title y) (safe_tmdb_search w title ty y st).2.tmdbSearchCache
        = some (safe_tmdb_search w title ty y st).1 ∧
      ∃ e, safe_tmdb_search w title ty y (safe_tmdb_search w title ty y st).2
          = ((safe_tmdb_search w title ty y st).1, (safe_tmdb_search w title ty y st).2.emit e)
        ∧ e.isOutbound = false) ∧
    (∀ (w : World) (tv_id : Nat) (st : St),
      alookup tv_id (tmdb_tv_details w tv_id st).2.tmdbDetailsCache
        = some (tmdb_tv_details w tv_id st).1 ∧
      ∃ e, tmdb_tv_details w tv_id (tmdb_tv_details w tv_id st).2
          = ((tmdb_tv_details w tv_id st).1, (tmdb_tv_details w tv_id st).2.emit e)
        ∧ e.isOutbound = false) ∧
    (∀ (w : World) (movie_id : Nat) (st : St),
      alookup movie_id (tmdb_movie_details w movie_id st).2.tmdbDetailsCache
        = some (tmdb_movie_details w movie_id st).1 ∧
      ∃ e, tmdb_movie_details w movie_id (tmdb_movie_details w movie_id st).2
          = ((tmdb_movie_details w movie_id st).1, (tmdb_movie_details w movie_id st).2.emit e)
        ∧ e.isOutbound = false) ∧
    (∀ (w : World) (tv_id : Nat) (s e' : Option Nat) (st : St),
      alookup (tv_id, s, e') (tmdb_episode_details w tv_id s e' st).2.epCacheTm
        = some (tmdb_episode_details w tv_id s e' st).1 ∧
      ∃ e, tmdb_episode_details w tv_id s e' (tmdb_episode_details w tv_id s e' st).2
          = ((tmdb_episode_details w tv_id s e' st).1, (tmdb_episode_details w tv_id s e' st).2.emit e)
        ∧ e.isOutbound = false) :=
  ⟨safe_imdb_search_cache, safe_tmdb_search_cache, tmdb_tv_details_cache,
    tmdb_movie_details_cache, tmdb_episode_details_cache⟩

theorem safe_imdb_search_trace (w : World) (title ty : String) (st : St) :
    ∃ b, (safe_imdb_search w title ty st).2.trace = st.trace ++ [.imdbSearch ty title b] := by
  cases h : alookup (imdbSearchKey ty title) st.imdbCache with
  | some val => cases val <;> exact ⟨false, by simp [safe_imdb_search, h]⟩
  | none => exact ⟨true, by simp [safe_imdb_search, h]⟩

theorem imdbDetailLookup_trace (w : World) (s : String) (st : St) :
    ∃ b, (imdbDetailLookup w s st).2.trace = st.trace ++ [.imdbDetail s b] := by
  cases h : alookup s st.imdbCache with
  | some val => cases val <;> exact ⟨false, by simp [imdbDetailLookup, h]⟩
  | none => exact ⟨true, by simp [imdbDetailLookup, h]⟩

theorem imdbEpisodeLookup_trace (w : World) (s : String) (se ep : Option Nat) (st : St) :
    ∃ b, (imdbEpisodeLookup w s se ep st).2.trace
      = st.trace ++ [.imdbSeason (s ++ "::" ++ pyStrON se ++ "::" ++ pyStrON ep) b] := by
  cases h : alookup (s ++ "::" ++ pyStrON se ++ "::" ++ pyStrON ep) st.epCacheCm with
  | some val => exact ⟨false, by simp [imdbEpisodeLookup, h]⟩
  | none => exact ⟨true, by simp [imdbEpisodeLookup, h]⟩

theorem safe_tmdb_search_trace (w : World) (title ty : String) (y : Option Nat) (st : St) :
    ∃ b, (safe_tmdb_search w title ty y st).2.trace
      = st.trace ++ [.tmdbSearch ty title y b] := by
  cases h : alookup (tmdbSearchKey ty title y) st.tmdbSearchCache with
  | some val => exact ⟨false, by simp [safe_tmdb_search, h]⟩
  | none =>
      cases hc : (if ty = "movie" then
          (if truthyON y then w.tmdbSearchMovies title y else w.tmdbSearchMovies title Option.none)
        else w.tmdbSearchTv title) with
      | ok results => exact ⟨true, by simp [safe_tmdb_search, h, hc]⟩
      | exn => exact ⟨true, by simp [safe_tmdb_search, h, hc]⟩

theorem tmdb_tv_details_trace (w : World) (tv_id : Nat) (st : St) :
    ∃ b, (tmdb_tv_details w tv_id st).2.trace = st.trace ++ [.tmdbDetails tv_id b] := by
  cases h : alookup tv_id st.tmdbDetailsCache with
  | some val => exact ⟨false, by simp [tmdb_tv_details, h]⟩
  | none =>
      cases hc : w.tmdbTvDetailsApi tv_id with
      | ok d => exact ⟨true, by simp [tmdb_tv_details, h, hc]⟩
      | exn => exact ⟨true, by simp [tmdb_tv_details, h, hc]⟩

theorem tmdb_movie_details_trace (w : World) (movie_id : Nat) (st : St) :
    ∃ b, (tmdb_movie_details w movie_id st).2.trace
      = st.trace ++ [.tmdbDetails movie_id b] := by
  cases h : alookup movie_id st.tmdbDetailsCache with
  | some val => exact ⟨false, by simp [tmdb_movie_details, h]⟩
  | none =>
      cases hc : w.tmdbMovieDetailsApi movie_id with
      | ok d => exact ⟨true, by simp [tmdb_movie_details, h, hc]⟩
      | exn => exact ⟨true, by simp [tmdb_movie_details, h, hc]⟩

theorem tmdb_episode_details_trace (w : World) (tv_id : Nat) (s e' : Option Nat) (st : St) :
    ∃ b, (tmdb_episode_details w tv_id s e' st).2.trace
      = st.trace ++ [.tmdbEpisode tv_id s e' b] := by
  cases h : alookup (tv_id, s, e') st.epCacheTm with
  | some val => exact ⟨false, by simp [tmdb_episode_details, h]⟩
  | none =>
      cases hc : w.tmdbEpisodeDetailsApi tv_id s e' with
      | ok d => exact ⟨true, by simp [tmdb_episode_details, h, hc]⟩
      | exn => exact ⟨true, by simp [tmdb_episode_details, h, hc]⟩

theorem tvTmdbPhase_trace (w : World) (title : String) (se ep : Option Nat)
    (q enc : Option String) (st : St) :
    ∃ d, (tvTmdbPhase w title se ep q enc st).2.trace = st.trace ++ d ∧
      ∀ ev ∈ d, ev.isTmdbEv = true := by
  rcases hx : safe_tmdb_search w title "tv" Option.none st with ⟨r, st₁⟩
  obtain ⟨b1, ht1⟩ := safe_tmdb_search_trace w title "tv" Option.none st
  rw [hx] at ht1
  replace ht1 : st₁.trace = st.trace ++ [.tmdbSearch "tv" title Option.none b1] := ht1
  cases r with
  | none =>
      refine ⟨[.tmdbSearch "tv" title Option.none b1], ?_, ?_⟩
      · simp [tvTmdbPhase, hx, ht1]
      · simp [Ev.isTmdbEv]
  | some r' =>
      rcases hy : tmdb_tv_details w r'.id st₁ with ⟨dres, st₂⟩
      obtain ⟨b2, ht2⟩ := tmdb_tv_details_trace w r'.id st₁
      rw [hy] at ht2
      replace ht2 : st₂.trace = st₁.trace ++ [.tmdbDetails r'.id b2] := ht2
      cases dres with
      | none =>
          refine ⟨[.tmdbSearch "tv" title Option.none b1, .tmdbDetails r'.id b2], ?_, ?_⟩
          · simp [tvTmdbPhase, hx, hy, ht2, ht1]
          · simp [Ev.isTmdbEv]
      | some dets =>
          rcases hz : tmdb_episode_details w r'.id se ep st₂ with ⟨eres, st₃⟩
          obtain ⟨b3, ht3⟩ := tmdb_episode_details_trace w r'.id se ep st₂
          rw [hz] at ht3
          replace ht3 : st₃.trace = st₂.trace ++ [.tmdbEpisode r'.id se ep b3] := ht3
          refine ⟨[.tmdbSearch "tv" title Option.none b1, .tmdbDetails r'.id b2,
            .tmdbEpisode r'.id se ep b3], ?_, ?_⟩
          · simp [tvTmdbPhase, hx, hy, hz, ht3, ht2, ht1]
          · simp [Ev.isTmdbEv]

theorem movieTmdbPhase_trace (w : World) (title : String) (y : Option Nat)
    (q enc : Option String) (st : St) :
    ∃ d, (movieTmdbPhase w title y q enc st).2.trace = st.trace ++ d ∧
      ∀ ev ∈ d, ev.isTmdbEv = true := by
  rcases hx : safe_tmdb_search w title "movie" y st with ⟨r, st₁⟩
  obtain ⟨b1, ht1⟩ := safe_tmdb_search_trace w title "movie" y st
  rw [hx] at ht1
  replace ht1 : st₁.trace = st.trace ++ [.tmdbSearch "movie" title y b1] := ht1
  cases r with
  | none =>
      refine ⟨[.tmdbSearch "movie" title y b1], ?_, ?_⟩
      · simp [movieTmdbPhase, hx, ht1]
      · simp [Ev.isTmdbEv]
  | some r' =>
      rcases hy : tmdb_movie_details w r'.id st₁ with ⟨dres, st₂⟩
      obtain ⟨b2, ht2⟩ := tmdb_movie_details_trace w r'.id st₁
      rw [hy] at ht2
      replace ht2 : st₂.trace = st₁.trace ++ [.tmdbDetails r'.id b2] := ht2
      cases dres with
      | none =>
          refine ⟨[.tmdbSearch "movie" title y b1, .tmdbDetails r'.id b2], ?_, ?_⟩
          · simp [movieTmdbPhase, hx, hy, ht2, ht1]
          · simp [Ev.isTmdbEv]
      | some dets =>
          refine ⟨[.tmdbSearch "movie" title y b1, .tmdbDetails r'.id b2], ?_, ?_⟩
          · simp [movieTmdbPhase, hx, hy, ht2, ht1]
          · simp [Ev.isTmdbEv]

theorem provider_of_tmdbEv (ev : Ev) (h : ev.isTmdbEv = true) :
    ev.isProviderLookup = true := by
  cases ev <;> simp_all [Ev.isTmdbEv, Ev.isProviderLookup]

theorem tmdbEv_not_imdbSearch (ev : Ev) (h : ev.isTmdbEv = true) :
    ev.isImdbSearch = false := by
  cases ev <;> simp_all [Ev.isTmdbEv, Ev.isImdbSearch]

theorem tvAfterSearch_idv_trace (w : World) (title : String) (se ep : Option Nat)
    (q enc : Option String) (s : String) (st : St) (hs : s ≠ "") :
    ∃ b rest, (tvAfterSearch w title se ep q enc (.idv (some s)) st).2.trace
      = st.trace ++ Ev.imdbDetail s b :: rest ∧
      ∀ ev ∈ rest, ev.isProviderLookup = true ∧ ev.isImdbSearch = false := by
  have hv : truthyOS (some s) = true := by simpa [truthyOS] using hs
  rcases hx : imdbDetailLookup w s st with ⟨tvd, st₁⟩
  obtain ⟨b1, ht1⟩ := imdbDetailLookup_trace w s st
  rw [hx] at ht1
  replace ht1 : st₁.trace = st.trace ++ [.imdbDetail s b1] := ht1
  rcases hy : imdbEpisodeLookup w s se ep st₁ with ⟨epf, st₂⟩
  obtain ⟨b2, ht2⟩ := imdbEpisodeLookup_trace w s se ep st₁
  rw [hy] at ht2
  replace ht2 : st₂.trace
    = st₁.trace ++ [.imdbSeason (s ++ "::" ++ pyStrON se ++ "::" ++ pyStrON ep) b2] := ht2
  have hbase : st₂.trace = st.trace ++ Ev.imdbDetail s b1 ::
      [.imdbSeason (s ++ "::" ++ pyStrON se ++ "::" ++ pyStrON ep) b2] := by
    rw [ht2, ht1]; simp
  cases tvd with
  | det dv =>
      cases dv with
      | some d =>
          refine ⟨b1, [.imdbSeason (s ++ "::" ++ pyStrON se ++ "::" ++ pyStrON ep) b2], ?_, ?_⟩
          · simpa [tvAfterSearch, hv, hx, hy] using hbase
          · simp [Ev.isProviderLookup, Ev.isImdbSearch]
      | none =>
          obtain ⟨d3, hd3, hall3⟩ := tvTmdbPhase_trace w title se ep q enc st₂
          refine ⟨b1, [.imdbSeason (s ++ "::" ++ pyStrON se ++ "::" ++ pyStrON ep) b2] ++ d3,
            ?_, ?_⟩
          · rw [show (tvAfterSearch w title se ep q enc (.idv (some s)) st).2
                = (tvTmdbPhase w title se ep q enc st₂).2 by simp [tvAfterSearch, hv, hx, hy]]
            rw [hd3, hbase]
            simp
          · intro ev hm
            simp at hm
            rcases hm with h | h
            · simp [h, Ev.isProviderLookup, Ev.isImdbSearch]
            · exact ⟨provider_of_tmdbEv ev (hall3 ev h), tmdbEv_not_imdbSearch ev (hall3 ev h)⟩
  | pois pv =>
      cases pv with
      | some sv =>
          by_cases hsv : sv = ""
          · obtain ⟨d3, hd3, hall3⟩ := tvTmdbPhase_trace w title se ep q enc st₂
            refine ⟨b1, [.imdbSeason (s ++ "::" ++ pyStrON se ++ "::" ++ pyStrON ep) b2] ++ d3,
              ?_, ?_⟩
            · rw [show (tvAfterSearch w title se ep q enc (.idv (some s)) st).2
                  = (tvTmdbPhase w title se ep q enc st₂).2 by
                    simp [tvAfterSearch, hv, hx, hy, hsv]]
              rw [hd3, hbase]
              simp
            · intro ev hm
              simp at hm
              rcases hm with h | h
              · simp [h, Ev.isProviderLookup, Ev.isImdbSearch]
              · exact ⟨provider_of_tmdbEv ev (hall3 ev h),
                  tmdbEv_not_imdbSearch ev (hall3 ev h)⟩
          · refine ⟨b1, [.imdbSeason (s ++ "::" ++ pyStrON se ++ "::" ++ pyStrON ep) b2], ?_, ?_⟩
            · simpa [tvAfterSearch, hv, hx, hy, hsv] using hbase
            · simp [Ev.isProviderLookup, Ev.isImdbSearch]
      | none =>
          obtain ⟨d3, hd3, hall3⟩ := tvTmdbPhase_trace w title se ep q enc st₂
          refine ⟨b1, [.imdbSeason (s ++ "::" ++ pyStrON se ++ "::" ++ pyStrON ep) b2] ++ d3,
            ?_, ?_⟩
          · rw [show (tvAfterSearch w title se ep q enc (.idv (some s)) st).2
                = (tvTmdbPhase w title se ep q enc st₂).2 by simp [tvAfterSearch, hv, hx, hy]]
            rw [hd3, hbase]
            simp
          · intro ev hm
            simp at hm
            rcases hm with h | h
            · simp [h, Ev.isProviderLookup, Ev.isImdbSearch]
            · exact ⟨provider_of_tmdbEv ev (hall3 ev h), tmdbEv_not_imdbSearch ev (hall3 ev h)⟩

theorem movieAfterSearch_idv_trace (w : World) (title : String) (y : Option Nat)
    (q enc : Option String) (s : String) (st : St) (hs : s ≠ "") :
    ∃ b rest, (movieAfterSearch w title y q enc (.idv (some s)) st).2.trace
      = st.trace ++ Ev.imdbDetail s b :: rest ∧
      ∀ ev ∈ rest, ev.isProviderLookup = true ∧ ev.isImdbSearch = false := by
  have hv : truthyOS (some s) = true := by simpa [truthyOS] using hs
  rcases hx : imdbDetailLookup w s st with ⟨tvd, st₁⟩
  obtain ⟨b1, ht1⟩ := imdbDetailLookup_trace w s st
  rw [hx] at ht1
  replace ht1 : st₁.trace = st.trace ++ [.imdbDetail s b1] := ht1
  cases tvd with
  | det dv =>
      cases dv with
      | some d =>
          refine ⟨b1, [], ?_, ?_⟩
          · simpa [movieAfterSearch, hv, hx] using ht1
          · simp
      | none =>
          obtain ⟨d3, hd3, hall3⟩ := movieTmdbPhase_trace w title y q enc st₁
          refine ⟨b1, d3, ?_, ?_⟩
          · rw [show (movieAfterSearch w title y q enc (.idv (some s)) st).2
                = (movieTmdbPhase w title y q enc st₁).2 by simp [movieAfterSearch, hv, hx]]
            rw [hd3, ht1]
            simp
          · intro ev hm
            exact ⟨provider_of_tmdbEv ev (hall3 ev hm), tmdbEv_not_imdbSearch ev (hall3 ev hm)⟩
  | pois pv =>
      cases pv with
      | some sv =>
          by_cases hsv : sv = ""
          · obtain ⟨d3, hd3, hall3⟩ := movieTmdbPhase_trace w title y q enc st₁
            refine ⟨b1, d3, ?_, ?_⟩
            · rw [show (movieAfterSearch w title y q enc (.idv (some s)) st).2
                  = (movieTmdbPhase w title y q enc st₁).2 by
                    simp [movieAfterSearch, hv, hx, hsv]]
              rw [hd3, ht1]
              simp
            · intro ev hm
              exact ⟨provider_of_tmdbEv ev (hall3 ev hm), tmdbEv_not_imdbSearch ev (hall3 ev hm)⟩
          · refine ⟨b1, [], ?_, ?_⟩
            · simpa [movieAfterSearch, hv, hx, hsv] using ht1
            · simp
      | none =>
          obtain ⟨d3, hd3, hall3⟩ := movieTmdbPhase_trace w title y q enc st₁
          refine ⟨b1, d3, ?_, ?_⟩
          · rw [show (movieAfterSearch w title y q enc (.idv (some s)) st).2
                = (movieTmdbPhase w title y q enc st₁).2 by simp [movieAfterSearch, hv, hx]]
            rw [hd3, ht1]
            simp
          · intro ev hm
            exact ⟨provider_of_tmdbEv ev (hall3 ev hm), tmdbEv_not_imdbSearch ev (hall3 ev hm)⟩

theorem startsWith_tt_ne_empty (s : String) (h : pyStartsWith s "tt" = true) : s ≠ "" := by
  intro hs
  subst hs
  exact absurd h (by decide)

/-- **C7.** When the caller supplies an external id hint recognizable as a
primary-provider identifier (`startswith("tt")`), both fetch paths skip
the primary search entirely (no `imdbSearch` lookup event anywhere) and
the very first provider lookup of the run is the primary detail lookup —
so any secondary-provider search can only occur after it. -/
theorem C7_id_hint_detail_before_secondary (w : World) (st : St) (title : String)
    (season episode year : Option Nat) (enc quality : Option String) (din : String)
    (h : pyStartsWith din "tt" = true) :
    (∃ b rest, (fetch_tv_metadata w title season episode enc year quality (some din) st).2.trace
        = st.trace ++ Ev.imdbDetail din b :: rest ∧
      ∀ ev ∈ Ev.imdbDetail din b :: rest, ev.isImdbSearch = false) ∧
    (∃ b rest, (fetch_movie_metadata w title enc year quality (some din) st).2.trace
        = st.trace ++ Ev.imdbDetail din b :: rest ∧
      ∀ ev ∈ Ev.imdbDetail din b :: rest, ev.isImdbSearch = false) := by
  have hne := startsWith_tt_ne_empty din h
  have hv : truthyOS (some din) = true := by simpa [truthyOS] using hne
  constructor
  · have hfe : fetch_tv_metadata w title season episode enc year quality (some din) st
        = tvAfterSearch w title season episode quality enc (.idv (some din)) st := by
      simp [fetch_tv_metadata, hv, h]
    obtain ⟨b, rest, htr, hall⟩ :=
      tvAfterSearch_idv_trace w title season episode quality enc din st hne
    refine ⟨b, rest, by rw [hfe]; exact htr, ?_⟩
    intro ev hm
    simp at hm
    rcases hm with h' | h'
    · simp [h', Ev.isImdbSearch]
    · exact (hall ev h').2
  · have hfe : fetch_movie_metadata w title enc year quality (some din) st
        = movieAfterSearch w title year quality enc (.idv (some din)) st := by
      simp [fetch_movie_metadata, hv, h]
    obtain ⟨b, rest, htr, hall⟩ :=
      movieAfterSearch_idv_trace w title year quality enc din st hne
    refine ⟨b, rest, by rw [hfe]; exact htr, ?_⟩
    intro ev hm
    simp at hm
    rcases hm with h' | h'
    · simp [h', Ev.isImdbSearch]
    · exact (hall ev h').2

/-- **C7 witness**: the id-hint scenario at `cw1` with hint `"tt1"`. -/
theorem C7_id_hint_witness :
    (∃ b rest, (fetch_tv_metadata cw1 "X" (some 2) (some 5) Option.none Option.none
        Option.none (some "tt1") st0).2.trace
        = st0.trace ++ Ev.imdbDetail "tt1" b :: rest ∧
      ∀ ev ∈ Ev.imdbDetail "tt1" b :: rest, ev.isImdbSearch = false) ∧
    (∃ b rest, (fetch_movie_metadata cw1 "X" Option.none Option.none Option.none
        (some "tt1") st0).2.trace
        = st0.trace ++ Ev.imdbDetail "tt1" b :: rest ∧
      ∀ ev ∈ Ev.imdbDetail "tt1" b :: rest, ev.isImdbSearch = false) :=
  C7_id_hint_detail_before_secondary cw1 st0 "X" (some 2) (some 5) Option.none
    Option.none Option.none "tt1" (by decide)

/-- **C1 counterexample.**  Claim C1 states that when the primary detail
lookup yields a show record but the season/episode fragment is absent the
engine "falls back fully to the secondary provider and does not return a
show-level-only primary-shaped record".  At the concrete scenario `cw1`
(hint `{title := "X", season := 2, episode := 5}`, primary search finds
`tt1`, primary detail succeeds, `videos` has no S2E5 entry, secondary
provider fully operational) the code does the opposite: it returns the
primary-shaped record with placeholder episode fields and performs no
secondary-provider lookup at all — even though a full fallback would have
resolved (last conjunct). -/
theorem C1_counterexample :
    (fetch_tv_metadata cw1 "X" (some 2) (some 5) Option.none Option.none Option.none
        Option.none st0).1
      = .ok (some (imdbShapedTv dX Option.none (some 2) (some 5) Option.none Option.none)) ∧
    (imdbShapedTv dX Option.none (some 2) (some 5) Option.none Option.none).imdb_id
      = some "tt1" ∧
    (imdbShapedTv dX Option.none (some 2) (some 5) Option.none Option.none).episode_title
      = some "ShowX S2E5" ∧
    (imdbShapedTv dX Option.none (some 2) (some 5) Option.none Option.none).episode_overview
      = some "" ∧
    (imdbShapedTv dX Option.none (some 2) (some 5) Option.none Option.none).episode_backdrop
      = "" ∧
    (imdbShapedTv dX Option.none (some 2) (some 5) Option.none Option.none).episode_released
      = "" ∧
    ((fetch_tv_metadata cw1 "X" (some 2) (some 5) Option.none Option.none Option.none
        Option.none st0).2.trace.any Ev.isTmdbEv) = false ∧
    (tvTmdbPhase cw1 "X" (some 2) (some 5) Option.none Option.none st0).1
      ≠ .ok Option.none := by
  decide

/-- **C1 (amended).**  When the primary search yields an id and the primary
detail lookup yields a record, `fetch_tv_metadata` returns `Resolved` with
the primary-shaped record *whether or not* the season/episode fragment was
found: a missing fragment only makes the episode fields fall back to
placeholders (synthesized `episode_title`, empty backdrop/overview/release).
No secondary-provider lookup happens on this path — the final state is
exactly the one after the three primary lookups, whose trace delta is the
primary search/detail/season triple.  (The full fallback of the original
claim occurs only when the detail record itself is falsy.) -/
theorem C1_primary_record_without_fragment (w : World) (st st₁ st₂ st₃ : St)
    (title : String) (season episode year : Option Nat) (enc quality : Option String)
    (s : String) (d : Detail) (ep : Option EpFrag)
    (hs : s ≠ "")
    (h1 : safe_imdb_search w title "tvSeries" st = (.idv (some s), st₁))
    (h2 : imdbDetailLookup w s st₁ = (.det (some d), st₂))
    (h3 : imdbEpisodeLookup w s season episode st₂ = (ep, st₃)) :
    fetch_tv_metadata w title season episode enc year quality Option.none st
      = (.ok (some (imdbShapedTv d ep season episode quality enc)), st₃) ∧
    ∃ b1 b2 b3, st₃.trace = st.trace ++
      [.imdbSearch "tvSeries" title b1, .imdbDetail s b2,
       .imdbSeason (s ++ "::" ++ pyStrON season ++ "::" ++ pyStrON episode) b3] := by
  have hv : truthyOS (some s) = true := by simpa [truthyOS] using hs
  constructor
  · simp [fetch_tv_metadata, truthyOS, h1, tvAfterSearch, hv, hs, h2, h3]
  · obtain ⟨b1, ht1⟩ := safe_imdb_search_trace w title "tvSeries" st
    rw [h1] at ht1
    replace ht1 : st₁.trace = st.trace ++ [.imdbSearch "tvSeries" title b1] := ht1
    obtain ⟨b2, ht2⟩ := imdbDetailLookup_trace w s st₁
    rw [h2] at ht2
    replace ht2 : st₂.trace = st₁.trace ++ [.imdbDetail s b2] := ht2
    obtain ⟨b3, ht3⟩ := imdbEpisodeLookup_trace w s season episode st₂
    rw [h3] at ht3
    replace ht3 : st₃.trace
      = st₂.trace ++ [.imdbSeason (s ++ "::" ++ pyStrON season ++ "::" ++ pyStrON episode) b3] :=
      ht3
    refine ⟨b1, b2, b3, ?_⟩
    rw [ht3, ht2, ht1]
    simp

/-- **C1 witness**: the amended theorem instantiated at the concrete
scenario `cw1` (fragment absent, record still primary-shaped). -/
theorem C1_primary_record_without_fragment_witness :
    fetch_tv_metadata cw1 "X" (some 2) (some 5) Option.none Option.none Option.none
        Option.none st0
      = (.ok (some (imdbShapedTv dX Option.none (some 2) (some 5) Option.none Option.none)),
         (imdbEpisodeLookup cw1 "tt1" (some 2) (some 5)
           (imdbDetailLookup cw1 "tt1" (safe_imdb_search cw1 "X" "tvSeries" st0).2).2).2) :=
  (C1_primary_record_without_fragment cw1 st0
    (safe_imdb_search cw1 "X" "tvSeries" st0).2
    (imdbDetailLookup cw1 "tt1" (safe_imdb_search cw1 "X" "tvSeries" st0).2).2
    (imdbEpisodeLookup cw1 "tt1" (some 2) (some 5)
      (imdbDetailLookup cw1 "tt1" (safe_imdb_search cw1 "X" "tvSeries" st0).2).2).2
    "X" (some 2) (some 5) Option.none Option.none Option.none "tt1" dX Option.none
    (by decide) (by decide) (by decide) (by decide)).1

/-- **C8.** The single-item entry point returns an explicit `None` — with
the module state untouched, hence no provider call and no cache effect —
for each of the implicit skip classes: a parse with no resolution/quality
token, a `combined` excess token, a split/multipart filename, a list-valued
season or episode, and a season with no episode. -/
theorem C8_entry_skip_classes (w : World) (st : St) (fn : String) (ch mid : Int) :
    (∀ p, w.ptnParse fn = .ok p →
      (combinedCheck p = true ∨
       truthyOS p.resolution = false ∨
       isListPIL p.season = true ∨ isListPIL p.episode = true ∨
       (truthyPIL p.season = true ∧ truthyPIL p.episode = false)) →
      metadata w fn ch mid st = (Option.none, st)) ∧
    (multipartSearch fn = true → metadata w fn ch mid st = (Option.none, st)) := by
  constructor
  · intro p hp hcase
    unfold metadata
    rw [hp]
    split_ifs <;> try rfl
    all_goals
      rcases hcase with hc | hc | hc | hc | ⟨hc1, hc2⟩ <;> simp_all
  · intro hm
    unfold metadata
    cases hpp : w.ptnParse fn with
    | exn => rfl
    | ok p =>
        by_cases h1 : combinedCheck p = true
        · simp [h1]
        · simp [h1, hm]

/-- Worlds whose parser returns a fixed `Parsed` value. -/
def pw (p : Parsed) : World := { w0 with ptnParse := fun _ => .ok p }

def p_comb : Parsed :=
  { title := some "T", season := Option.none, episode := Option.none, year := Option.none
  , resolution := some "1080p", excess := some ["GroupCombined.x"] }

def p_nores : Parsed :=
  { title := some "T", season := Option.none, episode := Option.none, year := Option.none
  , resolution := Option.none, excess := Option.none }

def p_list : Parsed :=
  { title := some "T", season := some (.listv [1, 2]), episode := some (.intv 3)
  , year := Option.none, resolution := some "1080p", excess := Option.none }

def p_sne : Parsed :=
  { title := some "T", season := some (.intv 1), episode := Option.none
  , year := Option.none, resolution := some "1080p", excess := Option.none }

/-- **C8 witness**: one concrete filename per skip class. -/
theorem C8_entry_skip_classes_witness :
    metadata (pw p_comb) "f.mkv" 0 0 st0 = (Option.none, st0) ∧
    metadata (pw p_nores) "f.mkv" 0 0 st0 = (Option.none, st0) ∧
    metadata (pw p_list) "f.mkv" 0 0 st0 = (Option.none, st0) ∧
    metadata (pw p_sne) "f.mkv" 0 0 st0 = (Option.none, st0) ∧
    metadata w0 "Movie.cd1.mkv" 0 0 st0 = (Option.none, st0) := by
  refine ⟨?_, ?_, ?_, ?_, ?_⟩
  · exact (C8_entry_skip_classes (pw p_comb) st0 "f.mkv" 0 0).1 p_comb (by decide)
      (Or.inl (by decide))
  · exact (C8_entry_skip_classes (pw p_nores) st0 "f.mkv" 0 0).1 p_nores (by decide)
      (Or.inr (Or.inl (by decide)))
  · exact (C8_entry_skip_classes (pw p_list) st0 "f.mkv" 0 0).1 p_list (by decide)
      (Or.inr (Or.inr (Or.inl (by decide))))
  · exact (C8_entry_skip_classes (pw p_sne) st0 "f.mkv" 0 0).1 p_sne (by decide)
      (Or.inr (Or.inr (Or.inr (Or.inr ⟨by decide, by decide⟩))))
  · exact (C8_entry_skip_classes w0 st0 "Movie.cd1.mkv" 0 0).2 (by decide)

/-- **C4.** One movie reconciliation unit, not cancelled at its own check:
* a *complete* record (cast, description, genres non-empty; logo a
  non-empty string) is counted done with no provider call and no store
  update — the whole effect is the `unitStarted` instrumentation event and
  the `DONE` increment, the module state (caches) and the record being
  untouched;
* an *incomplete* record drives one `fetch_movie_metadata` resolution with
  the title+year hint (the movie path has no season/episode), applies the
  partial `$set` update (identifiers, cast, description, genres, artwork,
  rating) on `Resolved`, and still counts the unit done on `Unresolved`
  (or on a swallowed exception) without updating. -/
theorem C4_movie_reconciler (w : World) (flag : Nat → Bool) (shard : Nat)
    (doc : MovieDoc) (f : FSt) (hflag : flag f.poll = false) :
    (movieComplete doc = true →
      safe_update_movie w flag shard doc f =
        { mst := f.mst.emit (.unitStarted .movie f.poll)
        , done := f.done + 1, poll := f.poll + 1 }) ∧
    (∀ tid ttl, movieComplete doc = false →
      doc.tmdb_id = some tid → doc.title = some ttl →
      ∀ meta, (fetch_movie_metadata w ttl Option.none doc.release_year Option.none
          Option.none (f.mst.emit (.unitStarted .movie f.poll))).1 = .ok (some meta) →
        safe_update_movie w flag shard doc f =
          { mst := ((fetch_movie_metadata w ttl Option.none doc.release_year Option.none
              Option.none (f.mst.emit (.unitStarted .movie f.poll))).2).emit
                (.updateMovie shard tid (movieSetOf meta))
          , done := f.done + 1, poll := f.poll + 1 }) ∧
    (∀ tid ttl, movieComplete doc = false →
      doc.tmdb_id = some tid → doc.title = some ttl →
      ((fetch_movie_metadata w ttl Option.none doc.release_year Option.none
          Option.none (f.mst.emit (.unitStarted .movie f.poll))).1 = .ok Option.none ∨
       (fetch_movie_metadata w ttl Option.none doc.release_year Option.none
          Option.none (f.mst.emit (.unitStarted .movie f.poll))).1 = .exn) →
        safe_update_movie w flag shard doc f =
          { mst := (fetch_movie_metadata w ttl Option.none doc.release_year Option.none
              Option.none (f.mst.emit (.unitStarted .movie f.poll))).2
          , done := f.done + 1, poll := f.poll + 1 }) := by
  refine ⟨?_, ?_, ?_⟩
  · intro hcomp
    simp [safe_update_movie, pollFlag, hflag, hcomp, FSt.emit]
  · intro tid ttl hcomp htid httl meta hres
    rcases hr : fetch_movie_metadata w ttl Option.none doc.release_year Option.none
        Option.none (f.mst.emit (.unitStarted .movie f.poll)) with ⟨r, mst'⟩
    rw [hr] at hres
    replace hres : r = .ok (some meta) := hres
    subst hres
    simp [safe_update_movie, pollFlag, hflag, hcomp, htid, httl, FSt.emit, hr]
  · intro tid ttl hcomp htid httl hres
    rcases hr : fetch_movie_metadata w ttl Option.none doc.release_year Option.none
        Option.none (f.mst.emit (.unitStarted .movie f.poll)) with ⟨r, mst'⟩
    rw [hr] at hres
    rcases hres with hres | hres <;>
      (replace hres : r = _ := hres; subst hres;
       simp [safe_update_movie, pollFlag, hflag, hcomp, htid, httl, FSt.emit, hr])

def flagF : Nat → Bool := fun _ => false

def f0 : FSt := { mst := st0, done := 0, poll := 0 }

def doc_done : MovieDoc :=
  { tmdb_id := some 5, title := some "M", release_year := some 2010
  , cast := ["A"], description := "D", genres := ["G"], logo := some "L" }

def doc_todo : MovieDoc :=
  { tmdb_id := some 6, title := some "M2", release_year := Option.none
  , cast := [], description := "", genres := [], logo := Option.none }

/-- **C4 witness**: the complete-record clause on `doc_done` (pure skip)
and the Unresolved clause on `doc_todo` against the dead world `w0`. -/
theorem C4_movie_reconciler_witness :
    safe_update_movie w0 flagF 1 doc_done f0 =
      { mst := st0.emit (.unitStarted .movie 0), done := 1, poll := 1 } ∧
    safe_update_movie w0 flagF 1 doc_todo f0 =
      { mst := (fetch_movie_metadata w0 "M2" Option.none Option.none Option.none
          Option.none (st0.emit (.unitStarted .movie 0))).2
      , done := 1, poll := 1 } := by
  constructor
  · exact (C4_movie_reconciler w0 flagF 1 doc_done f0 rfl).1 (by decide)
  · exact (C4_movie_reconciler w0 flagF 1 doc_todo f0 rfl).2.2 6 "M2" (by decide) rfl rfl
      (Or.inl (by decide))

theorem tvAfterSearch_provider_delta (w : World) (title : String) (se ep : Option Nat)
    (q enc : Option String) (sOut : SOut) (st : St) :
    ∃ d, (tvAfterSearch w title se ep q enc sOut st).2.trace = st.trace ++ d ∧
      ∀ ev ∈ d, ev.isProviderLookup = true := by
  cases sOut with
  | dictv v =>
      obtain ⟨d, hd, hall⟩ := tvTmdbPhase_trace w title se ep q enc st
      exact ⟨d, by simpa [tvAfterSearch] using hd,
        fun ev hm => provider_of_tmdbEv ev (hall ev hm)⟩
  | idv v =>
      cases v with
      | none =>
          obtain ⟨d, hd, hall⟩ := tvTmdbPhase_trace w title se ep q enc st
          exact ⟨d, by simpa [tvAfterSearch, truthyOS] using hd,
            fun ev hm => provider_of_tmdbEv ev (hall ev hm)⟩
      | some s =>
          by_cases hs : s = ""
          · subst hs
            obtain ⟨d, hd, hall⟩ := tvTmdbPhase_trace w title se ep q enc st
            exact ⟨d, by simpa [tvAfterSearch, truthyOS] using hd,
              fun ev hm => provider_of_tmdbEv ev (hall ev hm)⟩
          · obtain ⟨b, rest, htr, hall⟩ := tvAfterSearch_idv_trace w title se ep q enc s st hs
            refine ⟨Ev.imdbDetail s b :: rest, htr, ?_⟩
            intro ev hm
            simp at hm
            rcases hm with h | h
            · simp [h, Ev.isProviderLookup]
            · exact (hall ev h).1

theorem movieAfterSearch_provider_delta (w : World) (title : String) (y : Option Nat)
    (q enc : Option String) (sOut : SOut) (st : St) :
    ∃ d, (movieAfterSearch w title y q enc sOut st).2.trace = st.trace ++ d ∧
      ∀ ev ∈ d, ev.isProviderLookup = true := by
  cases sOut with
  | dictv v =>
      obtain ⟨d, hd, hall⟩ := movieTmdbPhase_trace w title y q enc st
      exact ⟨d, by simpa [movieAfterSearch] using hd,
        fun ev hm => provider_of_tmdbEv ev (hall ev hm)⟩
  | idv v =>
      cases v with
      | none =>
          obtain ⟨d, hd, hall⟩ := movieTmdbPhase_trace w title y q enc st
          exact ⟨d, by simpa [movieAfterSearch, truthyOS] using hd,
            fun ev hm => provider_of_tmdbEv ev (hall ev hm)⟩
      | some s =>
          by_cases hs : s = ""
          · subst hs
            obtain ⟨d, hd, hall⟩ := movieTmdbPhase_trace w title y q enc st
            exact ⟨d, by simpa [movieAfterSearch, truthyOS] using hd,
              fun ev hm => provider_of_tmdbEv ev (hall ev hm)⟩
          · obtain ⟨b, rest, htr, hall⟩ := movieAfterSearch_idv_trace w title y q enc s st hs
            refine ⟨Ev.imdbDetail s b :: rest, htr, ?_⟩
            intro ev hm
            simp at hm
            rcases hm with h | h
            · simp [h, Ev.isProviderLookup]
            · exact (hall ev h).1

theorem fetch_tv_metadata_provider_delta (w : World) (title : String)
    (se ep : Option Nat) (enc : Option String) (y : Option Nat) (q did : Option String)
    (st : St) :
    ∃ d, (fetch_tv_metadata w title se ep enc y q did st).2.trace = st.trace ++ d ∧
      ∀ ev ∈ d, ev.isProviderLookup = true := by
  by_cases hc : (truthyOS did = true ∧ pyStartsWith (did.getD "") "tt" = true)
  · have he : fetch_tv_metadata w title se ep enc y q did st
        = tvAfterSearch w title se ep q enc (.idv did) st := by
      simp [fetch_tv_metadata, hc.1, hc.2]
    rw [he]
    exact tvAfterSearch_provider_delta w title se ep q enc (.idv did) st
  · rcases hx : safe_imdb_search w title "tvSeries" st with ⟨sOut, st₁⟩
    have he : fetch_tv_metadata w title se ep enc y q did st
        = tvAfterSearch w title se ep q enc sOut st₁ := by
      simp [fetch_tv_metadata]
      rw [if_neg hc, hx]
    obtain ⟨b1, ht1⟩ := safe_imdb_search_trace w title "tvSeries" st
    rw [hx] at ht1
    replace ht1 : st₁.trace = st.trace ++ [.imdbSearch "tvSeries" title b1] := ht1
    obtain ⟨d, hd, hall⟩ := tvAfterSearch_provider_delta w title se ep q enc sOut st₁
    refine ⟨Ev.imdbSearch "tvSeries" title b1 :: d, ?_, ?_⟩
    · rw [he, hd, ht1]
      simp
    · intro ev hm
      simp at hm
      rcases hm with h | h
      · simp [h, Ev.isProviderLookup]
      · exact hall ev h

theorem fetch_movie_metadata_provider_delta (w : World) (title : String)
    (enc : Option String) (y : Option Nat) (q did : Option String) (st : St) :
    ∃ d, (fetch_movie_metadata w title enc y q did st).2.trace = st.trace ++ d ∧
      ∀ ev ∈ d, ev.isProviderLookup = true := by
  by_cases hc : (truthyOS did = true ∧ pyStartsWith (did.getD "") "tt" = true)
  · have he : fetch_movie_metadata w title enc y q did st
        = movieAfterSearch w title y q enc (.idv did) st := by
      simp [fetch_movie_metadata, hc.1, hc.2]
    rw [he]
    exact movieAfterSearch_provider_delta w title y q enc (.idv did) st
  · rcases hx : safe_imdb_search w (movieQuery title y) "movie" st with ⟨sOut, st₁⟩
    have he : fetch_movie_metadata w title enc y q did st
        = movieAfterSearch w title y q enc sOut st₁ := by
      simp [fetch_movie_metadata]
      rw [if_neg hc, hx]
    obtain ⟨b1, ht1⟩ := safe_imdb_search_trace w (movieQuery title y) "movie" st
    rw [hx] at ht1
    replace ht1 : st₁.trace = st.trace ++
        [.imdbSearch "movie" (movieQuery title y) b1] := ht1
    obtain ⟨d, hd, hall⟩ := movieAfterSearch_provider_delta w title y q enc sOut st₁
    refine ⟨Ev.imdbSearch "movie" (movieQuery title y) b1 :: d, ?_, ?_⟩
    · rw [he, hd, ht1]
      simp
    · intro ev hm
      simp at hm
      rcases hm with h | h
      · simp [h, Ev.isProviderLookup]
      · exact hall ev h

/-- Events only the shows pass can produce. -/
def tvSideEv : Ev → Bool
  | .unitStarted .tv _ => true
  | .unitStarted .episode _ => true
  | .updateShow _ _ _ => true
  | .updateEpisode _ _ _ _ _ => true
  | _ => false

/-- Events only the movies pass can produce. -/
def movieSideEv : Ev → Bool
  | .unitStarted .movie _ => true
  | .updateMovie _ _ _ => true
  | _ => false

def Ev.isReport : Ev → Bool
  | .report _ _ _ => true
  | _ => false

/-- Every unit-start event in sight was guarded by a poll that read the
flag as unset. -/
def GuardedUnit (flag : Nat → Bool) (ev : Ev) : Prop :=
  ∀ k n, ev = .unitStarted k n → flag n = false

/-- What the movies pass may append to the trace. -/
def MovieDeltaOK (flag : Nat → Bool) (d : List Ev) : Prop :=
  ∀ ev ∈ d, tvSideEv ev = false ∧ ev.isReport = false ∧ GuardedUnit flag ev

/-- What the shows pass may append to the trace. -/
def TvDeltaOK (flag : Nat → Bool) (d : List Ev) : Prop :=
  ∀ ev ∈ d, movieSideEv ev = false ∧ ev.isReport = false ∧ GuardedUnit flag ev

theorem movieDeltaOK_nil (flag : Nat → Bool) : MovieDeltaOK flag [] := by
  intro ev h; simp at h

theorem tvDeltaOK_nil (flag : Nat → Bool) : TvDeltaOK flag [] := by
  intro ev h; simp at h

theorem movieDeltaOK_append (flag : Nat → Bool) (d₁ d₂ : List Ev)
    (h₁ : MovieDeltaOK flag d₁) (h₂ : MovieDeltaOK flag d₂) :
    MovieDeltaOK flag (d₁ ++ d₂) := by
  intro ev hm
  simp at hm
  rcases hm with h | h
  · exact h₁ ev h
  · exact h₂ ev h

theorem tvDeltaOK_append (flag : Nat → Bool) (d₁ d₂ : List Ev)
    (h₁ : TvDeltaOK flag d₁) (h₂ : TvDeltaOK flag d₂) :
    TvDeltaOK flag (d₁ ++ d₂) := by
  intro ev hm
  simp at hm
  rcases hm with h | h
  · exact h₁ ev h
  · exact h₂ ev h

theorem movieOK_of_provider_ev (flag : Nat → Bool) (ev : Ev)
    (h : ev.isProviderLookup = true) :
    tvSideEv ev = false ∧ ev.isReport = false ∧ GuardedUnit flag ev := by
  cases ev <;> simp_all [Ev.isProviderLookup, tvSideEv, Ev.isReport, GuardedUnit]

theorem tvOK_of_provider_ev (flag : Nat → Bool) (ev : Ev)
    (h : ev.isProviderLookup = true) :
    movieSideEv ev = false ∧ ev.isReport = false ∧ GuardedUnit flag ev := by
  cases ev <;> simp_all [Ev.isProviderLookup, movieSideEv, Ev.isReport, GuardedUnit]

theorem movieDeltaOK_of_provider (flag : Nat → Bool) (d : List Ev)
    (h : ∀ ev ∈ d, ev.isProviderLookup = true) : MovieDeltaOK flag d :=
  fun ev hm => movieOK_of_provider_ev flag ev (h ev hm)

theorem tvDeltaOK_of_provider (flag : Nat → Bool) (d : List Ev)
    (h : ∀ ev ∈ d, ev.isProviderLookup = true) : TvDeltaOK flag d :=
  fun ev hm => tvOK_of_provider_ev flag ev (h ev hm)

theorem movieOK_unit (flag : Nat → Bool) (n : Nat) (h : flag n = false) :
    tvSideEv (.unitStarted .movie n) = false ∧ (Ev.unitStarted .movie n).isReport = false ∧
      GuardedUnit flag (.unitStarted .movie n) := by
  refine ⟨rfl, rfl, ?_⟩
  intro k m he
  cases he
  exact h

theorem tvOK_unit (flag : Nat → Bool) (k : UnitKind) (n : Nat) (h : flag n = false)
    (hk : k ≠ .movie) :
    movieSideEv (.unitStarted k n) = false ∧ (Ev.unitStarted k n).isReport = false ∧
      GuardedUnit flag (.unitStarted k n) := by
  refine ⟨?_, rfl, ?_⟩
  · cases k with
    | movie => exact absurd rfl hk
    | tv => rfl
    | episode => rfl
  · intro k' m he
    cases he
    exact h

theorem movieOK_update (flag : Nat → Bool) (shard tid : Nat) (fl : SetFields) :
    tvSideEv (.updateMovie shard tid fl) = false ∧
      (Ev.updateMovie shard tid fl).isReport = false ∧
      GuardedUnit flag (.updateMovie shard tid fl) := by
  refine ⟨rfl, rfl, ?_⟩
  intro k m he
  cases he

theorem tvOK_updateShow (flag : Nat → Bool) (shard tid : Nat) (fl : SetFields) :
    movieSideEv (.updateShow shard tid fl) = false ∧
      (Ev.updateShow shard tid fl).isReport = false ∧
      GuardedUnit flag (.updateShow shard tid fl) := by
  refine ⟨rfl, rfl, ?_⟩
  intro k m he
  cases he

theorem tvOK_updateEpisode (flag : Nat → Bool) (shard tid : Nat) (s e : Option Nat)
    (fl : EpSetFields) :
    movieSideEv (.updateEpisode shard tid s e fl) = false ∧
      (Ev.updateEpisode shard tid s e fl).isReport = false ∧
      GuardedUnit flag (.updateEpisode shard tid s e fl) := by
  refine ⟨rfl, rfl, ?_⟩
  intro k m he
  cases he

theorem safe_update_movie_step (w : World) (flag : Nat → Bool) (shard : Nat)
    (doc : MovieDoc) (f : FSt) :
    ∃ d, (safe_update_movie w flag shard doc f).mst.trace = f.mst.trace ++ d ∧
      MovieDeltaOK flag d := by
  cases hb : flag f.poll with
  | true =>
      refine ⟨[], ?_, movieDeltaOK_nil flag⟩
      simp [safe_update_movie, pollFlag, hb]
  | false =>
      by_cases hcomp : movieComplete doc = true
      · refine ⟨[.unitStarted .movie f.poll], ?_, ?_⟩
        · simp [safe_update_movie, pollFlag, hb, hcomp, FSt.emit]
        · intro ev h
          simp at h
          subst h
          exact movieOK_unit flag f.poll hb
      · have hcomp' : movieComplete doc = false := by simpa using hcomp
        cases htid : doc.tmdb_id with
        | none =>
            refine ⟨[.unitStarted .movie f.poll], ?_, ?_⟩
            · simp [safe_update_movie, pollFlag, hb, hcomp', htid, FSt.emit]
            · intro ev h
              simp at h
              subst h
              exact movieOK_unit flag f.poll hb
        | some tid =>
            cases httl : doc.title with
            | none =>
                refine ⟨[.unitStarted .movie f.poll], ?_, ?_⟩
                · simp [safe_update_movie, pollFlag, hb, hcomp', htid, httl, FSt.emit]
                · intro ev h
                  simp at h
                  subst h
                  exact movieOK_unit flag f.poll hb
            | some ttl =>
                rcases hr : fetch_movie_metadata w ttl Option.none doc.release_year
                    Option.none Option.none (f.mst.emit (.unitStarted .movie f.poll))
                  with ⟨r, mst'⟩
                obtain ⟨dF, hdF, hallF⟩ := fetch_movie_metadata_provider_delta w ttl
                  Option.none doc.release_year Option.none Option.none
                  (f.mst.emit (.unitStarted .movie f.poll))
                rw [hr] at hdF
                replace hdF : mst'.trace
                    = f.mst.trace ++ [Ev.unitStarted .movie f.poll] ++ dF := by
                  simpa [St.emit] using hdF
                have hunit : ∀ ev ∈ Ev.unitStarted UnitKind.movie f.poll :: dF,
                    tvSideEv ev = false ∧ ev.isReport = false ∧ GuardedUnit flag ev := by
                  intro ev h
                  simp at h
                  rcases h with h | h
                  · subst h; exact movieOK_unit flag f.poll hb
                  · exact movieOK_of_provider_ev flag ev (hallF ev h)
                cases r with
                | exn =>
                    refine ⟨Ev.unitStarted .movie f.poll :: dF, ?_, hunit⟩
                    have : (safe_update_movie w flag shard doc f).mst = mst' := by
                      simp [safe_update_movie, pollFlag, hb, hcomp', htid, httl, FSt.emit, hr]
                    rw [this, hdF]
                    simp
                | ok ro =>
                    cases ro with
                    | none =>
                        refine ⟨Ev.unitStarted .movie f.poll :: dF, ?_, hunit⟩
                        have : (safe_update_movie w flag shard doc f).mst = mst' := by
                          simp [safe_update_movie, pollFlag, hb, hcomp', htid, httl, FSt.emit, hr]
                        rw [this, hdF]
                        simp
                    | some meta =>
                        refine ⟨(Ev.unitStarted .movie f.poll :: dF)
                            ++ [.updateMovie shard tid (movieSetOf meta)], ?_, ?_⟩
                        · have : (safe_update_movie w flag shard doc f).mst
                              = mst'.emit (.updateMovie shard tid (movieSetOf meta)) := by
                            simp [safe_update_movie, pollFlag, hb, hcomp', htid, httl,
                              FSt.emit, hr]
                          rw [this]
                          simp [St.emit, hdF]
                        · intro ev h
                          simp at h
                          rcases h with h | h | h
                          · subst h; exact movieOK_unit flag f.poll hb
                          · exact movieOK_of_provider_ev flag ev (hallF ev h)
                          · subst h; exact movieOK_update flag shard tid (movieSetOf meta)

theorem runPendingMovies_step (w : World) (flag : Nat → Bool)
    (pending : List (Nat × MovieDoc)) (f : FSt) :
    ∃ d, (runPendingMovies w flag pending f).mst.trace = f.mst.trace ++ d ∧
      MovieDeltaOK flag d := by
  induction pending generalizing f with
  | nil => exact ⟨[], by simp [runPendingMovies], movieDeltaOK_nil flag⟩
  | cons p rest ih =>
      obtain ⟨d₁, h₁, ok₁⟩ := safe_update_movie_step w flag p.1 p.2 f
      obtain ⟨d₂, h₂, ok₂⟩ := ih (safe_update_movie w flag p.1 p.2 f)
      refine ⟨d₁ ++ d₂, ?_, movieDeltaOK_append flag d₁ d₂ ok₁ ok₂⟩
      have he : runPendingMovies w flag (p :: rest) f
          = runPendingMovies w flag rest (safe_update_movie w flag p.1 p.2 f) := by
        simp [runPendingMovies]
      rw [he, h₂, h₁, List.append_assoc]

theorem movieDocLoop_step (w : World) (flag : Nat → Bool) (shard : Nat)
    (docs : List MovieDoc) :
    ∀ pending f, ∃ d, (movieDocLoop w flag shard docs pending f).2.mst.trace
      = f.mst.trace ++ d ∧ MovieDeltaOK flag d := by
  induction docs with
  | nil =>
      intro pending f
      exact ⟨[], by simp [movieDocLoop], movieDeltaOK_nil flag⟩
  | cons doc rest ih =>
      intro pending f
      cases hb : flag f.poll with
      | true =>
          exact ⟨[], by simp [movieDocLoop, pollFlag, hb], movieDeltaOK_nil flag⟩
      | false =>
          by_cases hlen : (pending ++ [(shard, doc)]).length ≥ 40
          · obtain ⟨d₁, h₁, ok₁⟩ := runPendingMovies_step w flag (pending ++ [(shard, doc)])
              { f with poll := f.poll + 1 }
            obtain ⟨d₂, h₂, ok₂⟩ := ih []
              (runPendingMovies w flag (pending ++ [(shard, doc)]) { f with poll := f.poll + 1 })
            refine ⟨d₁ ++ d₂, ?_, movieDeltaOK_append flag d₁ d₂ ok₁ ok₂⟩
            have he : movieDocLoop w flag shard (doc :: rest) pending f
                = movieDocLoop w flag shard rest []
                    (runPendingMovies w flag (pending ++ [(shard, doc)])
                      { f with poll := f.poll + 1 }) := by
              simp [movieDocLoop, pollFlag, hb, hlen]
              intro hcon
              exfalso
              simp [List.length_append] at hlen
              omega
            rw [he, h₂, h₁, List.append_assoc]
          · obtain ⟨d₂, h₂, ok₂⟩ := ih (pending ++ [(shard, doc)]) { f with poll := f.poll + 1 }
            refine ⟨d₂, ?_, ok₂⟩
            have he : movieDocLoop w flag shard (doc :: rest) pending f
                = movieDocLoop w flag shard rest (pending ++ [(shard, doc)])
                    { f with poll := f.poll + 1 } := by
              simp [movieDocLoop, pollFlag, hb, hlen]
              intro hcon
              exfalso
              simp [List.length_append] at hlen
              omega
            rw [he, h₂]

theorem movieShardLoop_step (w : World) (flag : Nat → Bool) (shards : List Shard) :
    ∀ i pending f, ∃ d, (movieShardLoop w flag shards i pending f).2.mst.trace
      = f.mst.trace ++ d ∧ MovieDeltaOK flag d := by
  induction shards with
  | nil =>
      intro i pending f
      exact ⟨[], by simp [movieShardLoop], movieDeltaOK_nil flag⟩
  | cons sh rest ih =>
      intro i pending f
      cases hb : flag f.poll with
      | true =>
          exact ⟨[], by simp [movieShardLoop, pollFlag, hb], movieDeltaOK_nil flag⟩
      | false =>
          rcases hd : movieDocLoop w flag i sh.movies pending { f with poll := f.poll + 1 }
            with ⟨pending₁, f₁⟩
          obtain ⟨d₁, h₁, ok₁⟩ := movieDocLoop_step w flag i sh.movies pending
            { f with poll := f.poll + 1 }
          rw [hd] at h₁
          replace h₁ : f₁.mst.trace = f.mst.trace ++ d₁ := h₁
          obtain ⟨d₂, h₂, ok₂⟩ := ih (i + 1) pending₁ f₁
          refine ⟨d₁ ++ d₂, ?_, movieDeltaOK_append flag d₁ d₂ ok₁ ok₂⟩
          have he : movieShardLoop w flag (sh :: rest) i pending f
              = movieShardLoop w flag rest (i + 1) pending₁ f₁ := by
            simp [movieShardLoop, pollFlag, hb, hd]
          rw [he, h₂, h₁, List.append_assoc]

theorem update_movies_step (w : World) (flag : Nat → Bool) (shards : List Shard)
    (f : FSt) :
    ∃ d, (update_movies w flag shards f).mst.trace = f.mst.trace ++ d ∧
      MovieDeltaOK flag d := by
  rcases hs : movieShardLoop w flag shards 1 [] f with ⟨pending, f₁⟩
  obtain ⟨d₁, h₁, ok₁⟩ := movieShardLoop_step w flag shards 1 [] f
  rw [hs] at h₁
  replace h₁ : f₁.mst.trace = f.mst.trace ++ d₁ := h₁
  obtain ⟨d₂, h₂, ok₂⟩ := runPendingMovies_step w flag pending f₁
  refine ⟨d₁ ++ d₂, ?_, movieDeltaOK_append flag d₁ d₂ ok₁ ok₂⟩
  have he : update_movies w flag shards f = runPendingMovies w flag pending f₁ := by
    simp [update_movies, hs]
  rw [he, h₂, h₁, List.append_assoc]

theorem buildEpTasksInner_mst (flag : Nat → Bool) (s : Option Nat) (eps : List EpDoc) :
    ∀ f, (buildEpTasksInner flag s eps f).2.mst = f.mst := by
  induction eps with
  | nil => intro f; simp [buildEpTasksInner]
  | cons ep rest ih =>
      intro f
      cases hb : flag f.poll with
      | true => simp [buildEpTasksInner, pollFlag, hb]
      | false =>
          by_cases hc : epComplete ep = true
          · simp [buildEpTasksInner, pollFlag, hb, hc, ih]
          · have hc' : epComplete ep = false := by simpa using hc
            simp [buildEpTasksInner, pollFlag, hb, hc', ih]

theorem buildEpTasks_mst (flag : Nat → Bool) (seasons : List SeasonDoc) :
    ∀ f, (buildEpTasks flag seasons f).2.mst = f.mst := by
  induction seasons with
  | nil => intro f; simp [buildEpTasks]
  | cons sd rest ih =>
      intro f
      cases hb : flag f.poll with
      | true => simp [buildEpTasks, pollFlag, hb]
      | false =>
          rcases hi : buildEpTasksInner flag sd.season_number sd.episodes
            { f with poll := f.poll + 1 } with ⟨l1, f₁⟩
          have h₁ : f₁.mst = f.mst := by
            have := buildEpTasksInner_mst flag sd.season_number sd.episodes
              { f with poll := f.poll + 1 }
            rw [hi] at this
            exact this
          rcases hr : buildEpTasks flag rest f₁ with ⟨l2, f₂⟩
          have h₂ : f₂.mst = f₁.mst := by
            have := ih f₁
            rw [hr] at this
            exact this
          simp [buildEpTasks, pollFlag, hb, hi, hr, h₂, h₁]

theorem epTask_step (w : World) (flag : Nat → Bool) (shard tid : Nat) (title : String)
    (year : Option Nat) (stamp : Nat) (t : Option Nat × Option Nat) (f : FSt)
    (hstamp : flag stamp = false) :
    ∃ d, (epTask w shard tid title year stamp t f).mst.trace = f.mst.trace ++ d ∧
      TvDeltaOK flag d := by
  rcases hr : fetch_tv_metadata w title t.1 t.2 Option.none year Option.none Option.none
      (f.mst.emit (.unitStarted .episode stamp)) with ⟨r, mst'⟩
  obtain ⟨dF, hdF, hallF⟩ := fetch_tv_metadata_provider_delta w title t.1 t.2 Option.none
    year Option.none Option.none (f.mst.emit (.unitStarted .episode stamp))
  rw [hr] at hdF
  replace hdF : mst'.trace = f.mst.trace ++ [Ev.unitStarted .episode stamp] ++ dF := by
    simpa [St.emit] using hdF
  have hunit : ∀ ev ∈ Ev.unitStarted UnitKind.episode stamp :: dF,
      movieSideEv ev = false ∧ ev.isReport = false ∧ GuardedUnit flag ev := by
    intro ev h
    simp at h
    rcases h with h | h
    · subst h; exact tvOK_unit flag .episode stamp hstamp (by simp)
    · exact tvOK_of_provider_ev flag ev (hallF ev h)
  cases r with
  | exn =>
      refine ⟨Ev.unitStarted .episode stamp :: dF, ?_, hunit⟩
      have he : (epTask w shard tid title year stamp t f).mst = mst' := by
        simp [epTask, FSt.emit, hr]
      rw [he, hdF]
      simp
  | ok ro =>
      cases ro with
      | none =>
          refine ⟨Ev.unitStarted .episode stamp :: dF, ?_, hunit⟩
          have he : (epTask w shard tid title year stamp t f).mst = mst' := by
            simp [epTask, FSt.emit, hr]
          rw [he, hdF]
          simp
      | some m =>
          refine ⟨(Ev.unitStarted .episode stamp :: dF)
              ++ [.updateEpisode shard tid t.1 t.2 (epSetOf m)], ?_, ?_⟩
          · have he : (epTask w shard tid title year stamp t f).mst
                = mst'.emit (.updateEpisode shard tid t.1 t.2 (epSetOf m)) := by
              simp [epTask, FSt.emit, hr]
            rw [he]
            simp [St.emit, hdF]
          · intro ev h
            simp at h
            rcases h with h | h | h
            · subst h; exact tvOK_unit flag .episode stamp hstamp (by simp)
            · exact tvOK_of_provider_ev flag ev (hallF ev h)
            · subst h; exact tvOK_updateEpisode flag shard tid t.1 t.2 (epSetOf m)

theorem runEpBatch_step (w : World) (flag : Nat → Bool) (shard tid : Nat) (title : String)
    (year : Option Nat) (stamp : Nat) (batch : List (Option Nat × Option Nat)) (f : FSt)
    (hstamp : flag stamp = false) :
    ∃ d, (runEpBatch w shard tid title year stamp batch f).mst.trace
      = f.mst.trace ++ d ∧ TvDeltaOK flag d := by
  induction batch generalizing f with
  | nil => exact ⟨[], by simp [runEpBatch], tvDeltaOK_nil flag⟩
  | cons t rest ih =>
      obtain ⟨d₁, h₁, ok₁⟩ := epTask_step w flag shard tid title year stamp t f hstamp
      obtain ⟨d₂, h₂, ok₂⟩ := ih (epTask w shard tid title year stamp t f)
      refine ⟨d₁ ++ d₂, ?_, tvDeltaOK_append flag d₁ d₂ ok₁ ok₂⟩
      have he : runEpBatch w shard tid title year stamp (t :: rest) f
          = runEpBatch w shard tid title year stamp rest
              (epTask w shard tid title year stamp t f) := by
        simp [runEpBatch]
      rw [he, h₂, h₁, List.append_assoc]

theorem runEpWavesGo_step (w : World) (flag : Nat → Bool) (shard tid : Nat)
    (title : String) (year : Option Nat)
    (chunks : List (List (Option Nat × Option Nat))) :
    ∀ f, ∃ d, (runEpWavesGo w flag shard tid title year chunks f).mst.trace
      = f.mst.trace ++ d ∧ TvDeltaOK flag d := by
  induction chunks with
  | nil => intro f; exact ⟨[], by simp [runEpWavesGo], tvDeltaOK_nil flag⟩
  | cons batch rest ih =>
      intro f
      cases hb : flag f.poll with
      | true =>
          exact ⟨[], by simp [runEpWavesGo, pollFlag, hb], tvDeltaOK_nil flag⟩
      | false =>
          obtain ⟨d₁, h₁, ok₁⟩ := runEpBatch_step w flag shard tid title year f.poll batch
            { f with poll := f.poll + 1 } hb
          obtain ⟨d₂, h₂, ok₂⟩ := ih
            (runEpBatch w shard tid title year f.poll batch { f with poll := f.poll + 1 })
          refine ⟨d₁ ++ d₂, ?_, tvDeltaOK_append flag d₁ d₂ ok₁ ok₂⟩
          have he : runEpWavesGo w flag shard tid title year (batch :: rest) f
              = runEpWavesGo w flag shard tid title year rest
                  (runEpBatch w shard tid title year f.poll batch
                    { f with poll := f.poll + 1 }) := by
            simp [runEpWavesGo, pollFlag, hb]
          rw [he, h₂, h₁, List.append_assoc]

theorem runEpWaves_step (w : World) (flag : Nat → Bool) (shard tid : Nat)
    (title : String) (year : Option Nat) (tasks : List (Option Nat × Option Nat))
    (f : FSt) :
    ∃ d, (runEpWaves w flag shard tid title year tasks f).mst.trace
      = f.mst.trace ++ d ∧ TvDeltaOK flag d := by
  by_cases ht : tasks = []
  · exact ⟨[], by simp [runEpWaves, ht], tvDeltaOK_nil flag⟩
  · have he : runEpWaves w flag shard tid title year tasks f
        = runEpWavesGo w flag shard tid title year (chunks20 tasks) f := by
      simp [runEpWaves, ht]
    rw [he]
    exact runEpWavesGo_step w flag shard tid title year (chunks20 tasks) f

theorem safe_update_tv_step (w : World) (flag : Nat → Bool) (shard : Nat)
    (doc : TvDoc) (f : FSt) :
    ∃ d, (safe_update_tv w flag shard doc f).mst.trace = f.mst.trace ++ d ∧
      TvDeltaOK flag d := by
  cases hb : flag f.poll with
  | true =>
      refine ⟨[], ?_, tvDeltaOK_nil flag⟩
      simp [safe_update_tv, pollFlag, hb]
  | false =>
      have hunit1 : ∀ ev ∈ [Ev.unitStarted UnitKind.tv f.poll],
          movieSideEv ev = false ∧ ev.isReport = false ∧ GuardedUnit flag ev := by
        intro ev h
        simp at h
        subst h
        exact tvOK_unit flag .tv f.poll hb (by simp)
      cases htid : doc.tmdb_id with
      | none =>
          refine ⟨[.unitStarted .tv f.poll], ?_, hunit1⟩
          simp [safe_update_tv, pollFlag, hb, htid, FSt.emit]
      | some tid =>
          cases httl : doc.title with
          | none =>
              refine ⟨[.unitStarted .tv f.poll], ?_, hunit1⟩
              simp [safe_update_tv, pollFlag, hb, htid, httl, FSt.emit]
          | some ttl =>
              by_cases hcomp : tvShowComplete doc = true
              · -- show-level skip, straight to the episode loop
                rcases hbt : buildEpTasks flag doc.seasons
                    { mst := (f.mst.emit (.unitStarted .tv f.poll)), done := f.done
                    , poll := f.poll + 1 } with ⟨tasks, f₃⟩
                have h₃ : f₃.mst = f.mst.emit (.unitStarted .tv f.poll) := by
                  have := buildEpTasks_mst flag doc.seasons
                    { mst := (f.mst.emit (.unitStarted .tv f.poll)), done := f.done
                    , poll := f.poll + 1 }
                  rw [hbt] at this
                  exact this
                obtain ⟨dW, hW, okW⟩ := runEpWaves_step w flag shard tid ttl
                  doc.release_year tasks f₃
                refine ⟨Ev.unitStarted .tv f.poll :: dW, ?_, ?_⟩
                · have he : (safe_update_tv w flag shard doc f).mst
                      = (runEpWaves w flag shard tid ttl doc.release_year tasks f₃).mst := by
                    simp [safe_update_tv, pollFlag, hb, htid, httl, hcomp, FSt.emit, hbt]
                  rw [he, hW, h₃]
                  simp [St.emit]
                · intro ev h
                  simp at h
                  rcases h with h | h
                  · subst h; exact tvOK_unit flag .tv f.poll hb (by simp)
                  · exact okW ev h
              · have hcomp' : tvShowComplete doc = false := by simpa using hcomp
                rcases hr : fetch_tv_metadata w ttl (some 1) (some 1) Option.none
                    doc.release_year Option.none Option.none
                    (f.mst.emit (.unitStarted .tv f.poll)) with ⟨r, mst'⟩
                obtain ⟨dF, hdF, hallF⟩ := fetch_tv_metadata_provider_delta w ttl (some 1)
                  (some 1) Option.none doc.release_year Option.none Option.none
                  (f.mst.emit (.unitStarted .tv f.poll))
                rw [hr] at hdF
                replace hdF : mst'.trace
                    = f.mst.trace ++ [Ev.unitStarted .tv f.poll] ++ dF := by
                  simpa [St.emit] using hdF
                have hunitF : ∀ ev ∈ Ev.unitStarted UnitKind.tv f.poll :: dF,
                    movieSideEv ev = false ∧ ev.isReport = false ∧ GuardedUnit flag ev := by
                  intro ev h
                  simp at h
                  rcases h with h | h
                  · subst h; exact tvOK_unit flag .tv f.poll hb (by simp)
                  · exact tvOK_of_provider_ev flag ev (hallF ev h)
                cases r with
                | exn =>
                    refine ⟨Ev.unitStarted .tv f.poll :: dF, ?_, hunitF⟩
                    have he : (safe_update_tv w flag shard doc f).mst = mst' := by
                      simp [safe_update_tv, pollFlag, hb, htid, httl, hcomp', FSt.emit, hr]
                    rw [he, hdF]
                    simp
                | ok ro =>
                    have hstep : ∀ (mshow : St),
                        (∃ dS, mshow.trace = mst'.trace ++ dS ∧ TvDeltaOK flag dS) →
                        (safe_update_tv w flag shard doc f).mst
                          = (runEpWaves w flag shard tid ttl doc.release_year
                              (buildEpTasks flag doc.seasons
                                { mst := mshow, done := f.done, poll := f.poll + 1 }).1
                              (buildEpTasks flag doc.seasons
                                { mst := mshow, done := f.done, poll := f.poll + 1 }).2).mst →
                        ∃ d, (safe_update_tv w flag shard doc f).mst.trace
                          = f.mst.trace ++ d ∧ TvDeltaOK flag d := by
                      intro mshow ⟨dS, hS, okS⟩ hout
                      rcases hbt : buildEpTasks flag doc.seasons
                          { mst := mshow, done := f.done, poll := f.poll + 1 }
                        with ⟨tasks, f₃⟩
                      have h₃ : f₃.mst = mshow := by
                        have := buildEpTasks_mst flag doc.seasons
                          { mst := mshow, done := f.done, poll := f.poll + 1 }
                        rw [hbt] at this
                        exact this
                      obtain ⟨dW, hW, okW⟩ := runEpWaves_step w flag shard tid ttl
                        doc.release_year tasks f₃
                      refine ⟨(Ev.unitStarted .tv f.poll :: dF) ++ dS ++ dW, ?_, ?_⟩
                      · rw [hout, hbt]
                        rw [hW, h₃, hS, hdF]
                        simp
                      · refine tvDeltaOK_append flag _ dW
                          (tvDeltaOK_append flag _ dS hunitF okS) okW
                    cases ro with
                    | none =>
                        refine hstep mst' ⟨[], by simp, tvDeltaOK_nil flag⟩ ?_
                        simp [safe_update_tv, pollFlag, hb, htid, httl, hcomp', FSt.emit, hr]
                    | some m =>
                        refine hstep (mst'.emit (.updateShow shard tid (showSetOf m)))
                          ⟨[.updateShow shard tid (showSetOf m)], by simp [St.emit], ?_⟩ ?_
                        · intro ev h
                          simp at h
                          subst h
                          exact tvOK_updateShow flag shard tid (showSetOf m)
                        · simp [safe_update_tv, pollFlag, hb, htid, httl, hcomp', FSt.emit, hr]

theorem runPendingTv_step (w : World) (flag : Nat → Bool)
    (pending : List (Nat × TvDoc)) (f : FSt) :
    ∃ d, (runPendingTv w flag pending f).mst.trace = f.mst.trace ++ d ∧
      TvDeltaOK flag d := by
  induction pending generalizing f with
  | nil => exact ⟨[], by simp [runPendingTv], tvDeltaOK_nil flag⟩
  | cons p rest ih =>
      obtain ⟨d₁, h₁, ok₁⟩ := safe_update_tv_step w flag p.1 p.2 f
      obtain ⟨d₂, h₂, ok₂⟩ := ih (safe_update_tv w flag p.1 p.2 f)
      refine ⟨d₁ ++ d₂, ?_, tvDeltaOK_append flag d₁ d₂ ok₁ ok₂⟩
      have he : runPendingTv w flag (p :: rest) f
          = runPendingTv w flag rest (safe_update_tv w flag p.1 p.2 f) := by
        simp [runPendingTv]
      rw [he, h₂, h₁, List.append_assoc]

theorem tvDocLoop_step (w : World) (flag : Nat → Bool) (shard : Nat)
    (docs : List TvDoc) :
    ∀ pending f, ∃ d, (tvDocLoop w flag shard docs pending f).2.mst.trace
      = f.mst.trace ++ d ∧ TvDeltaOK flag d := by
  induction docs with
  | nil =>
      intro pending f
      exact ⟨[], by simp [tvDocLoop], tvDeltaOK_nil flag⟩
  | cons doc rest ih =>
      intro pending f
      cases hb : flag f.poll with
      | true =>
          exact ⟨[], by simp [tvDocLoop, pollFlag, hb], tvDeltaOK_nil flag⟩
      | false =>
          by_cases hlen : (pending ++ [(shard, doc)]).length ≥ 40
          · obtain ⟨d₁, h₁, ok₁⟩ := runPendingTv_step w flag (pending ++ [(shard, doc)])
              { f with poll := f.poll + 1 }
            obtain ⟨d₂, h₂, ok₂⟩ := ih []
              (runPendingTv w flag (pending ++ [(shard, doc)]) { f with poll := f.poll + 1 })
            refine ⟨d₁ ++ d₂, ?_, tvDeltaOK_append flag d₁ d₂ ok₁ ok₂⟩
            have he : tvDocLoop w flag shard (doc :: rest) pending f
                = tvDocLoop w flag shard rest []
                    (runPendingTv w flag (pending ++ [(shard, doc)])
                      { f with poll := f.poll + 1 }) := by
              simp [tvDocLoop, pollFlag, hb, hlen]
              intro hcon
              exfalso
              simp [List.length_append] at hlen
              omega
            rw [he, h₂, h₁, List.append_assoc]
          · obtain ⟨d₂, h₂, ok₂⟩ := ih (pending ++ [(shard, doc)]) { f with poll := f.poll + 1 }
            refine ⟨d₂, ?_, ok₂⟩
            have he : tvDocLoop w flag shard (doc :: rest) pending f
                = tvDocLoop w flag shard rest (pending ++ [(shard, doc)])
                    { f with poll := f.poll + 1 } := by
              simp [tvDocLoop, pollFlag, hb, hlen]
              intro hcon
              exfalso
              simp [List.length_append] at hlen
              omega
            rw [he, h₂]

theorem tvShardLoop_step (w : World) (flag : Nat → Bool) (shards : List Shard) :
    ∀ i pending f, ∃ d, (tvShardLoop w flag shards i pending f).2.mst.trace
      = f.mst.trace ++ d ∧ TvDeltaOK flag d := by
  induction shards with
  | nil =>
      intro i pending f
      exact ⟨[], by simp [tvShardLoop], tvDeltaOK_nil flag⟩
  | cons sh rest ih =>
      intro i pending f
      cases hb : flag f.poll with
      | true =>
          exact ⟨[], by simp [tvShardLoop, pollFlag, hb], tvDeltaOK_nil flag⟩
      | false =>
          rcases hd : tvDocLoop w flag i sh.tvs pending { f with poll := f.poll + 1 }
            with ⟨pending₁, f₁⟩
          obtain ⟨d₁, h₁, ok₁⟩ := tvDocLoop_step w flag i sh.tvs pending
            { f with poll := f.poll + 1 }
          rw [hd] at h₁
          replace h₁ : f₁.mst.trace = f.mst.trace ++ d₁ := h₁
          obtain ⟨d₂, h₂, ok₂⟩ := ih (i + 1) pending₁ f₁
          refine ⟨d₁ ++ d₂, ?_, tvDeltaOK_append flag d₁ d₂ ok₁ ok₂⟩
          have he : tvShardLoop w flag (sh :: rest) i pending f
              = tvShardLoop w flag rest (i + 1) pending₁ f₁ := by
            simp [tvShardLoop, pollFlag, hb, hd]
          rw [he, h₂, h₁, List.append_assoc]

theorem update_tv_step (w : World) (flag : Nat → Bool) (shards : List Shard) (f : FSt) :
    ∃ d, (update_tv w flag shards f).mst.trace = f.mst.trace ++ d ∧ TvDeltaOK flag d := by
  rcases hs : tvShardLoop w flag shards 1 [] f with ⟨pending, f₁⟩
  obtain ⟨d₁, h₁, ok₁⟩ := tvShardLoop_step w flag shards 1 [] f
  rw [hs] at h₁
  replace h₁ : f₁.mst.trace = f.mst.trace ++ d₁ := h₁
  obtain ⟨d₂, h₂, ok₂⟩ := runPendingTv_step w flag pending f₁
  refine ⟨d₁ ++ d₂, ?_, tvDeltaOK_append flag d₁ d₂ ok₁ ok₂⟩
  have he : update_tv w flag shards f = runPendingTv w flag pending f₁ := by
    simp [update_tv, hs]
  rw [he, h₂, h₁, List.append_assoc]

/-- **C5.** One batch reconciliation run, under the cooperative
single-threaded scheduling model and a monotone cancellation flag
(once set it stays set; index `n` is the `n`-th poll after the handler's
own reset).  The run's trace delta splits as `dM ++ dT ++ dR`:
* `dM` contains no shows-pass event and `dT` no movies-pass event — the
  shows pass cannot begin before the movies pass is over;
* every started unit (movie, show, or episode wave member) was admitted by
  a poll that read the flag as unset, so once the flag is set at poll `m`
  no unit with guard index `≥ m` ever starts;
* `dR` is the final completion report or nothing, it is the only place a
  report can occur, and it is non-empty exactly when the final poll read
  the flag unset — a cancelled run returns silently with no report;
* a never-cancelled run always ends with the `done/total/elapsed` report,
  whatever the providers and units did. -/
theorem C5_cancellation_and_completion (w : World) (flag : Nat → Bool)
    (shards : List Shard) (st : St)
    (hmono : ∀ i j, i ≤ j → flag i = true → flag j = true) :
    ∃ dM dT dR,
      (fix_metadata_handler w flag shards st).mst.trace = st.trace ++ (dM ++ dT ++ dR) ∧
      (∀ ev ∈ dM, tvSideEv ev = false ∧ ev.isReport = false) ∧
      (∀ ev ∈ dT, movieSideEv ev = false ∧ ev.isReport = false) ∧
      (∀ m, flag m = true → ∀ k n, Ev.unitStarted k n ∈ dM ++ dT ++ dR → n < m) ∧
      (dR = [] ∨ dR = [.report (fix_metadata_handler w flag shards st).done
          (shards.foldl (fun a sh => a + sh.movies.length + sh.tvs.length) 0) w.elapsed]) ∧
      (dR ≠ [] ↔ flag ((fix_metadata_handler w flag shards st).poll - 1) = false) ∧
      ((∀ n, flag n = false) → dR = [.report (fix_metadata_handler w flag shards st).done
          (shards.foldl (fun a sh => a + sh.movies.length + sh.tvs.length) 0) w.elapsed]) := by
  obtain ⟨dM, hM, okM⟩ := update_movies_step w flag shards { mst := st, done := 0, poll := 0 }
  have guardM : ∀ m, flag m = true → ∀ k n, Ev.unitStarted k n ∈ dM → n < m := by
    intro m hm k n hmem
    have hnf : flag n = false := (okM _ hmem).2.2 k n rfl
    by_contra hge
    have hle : m ≤ n := by omega
    rw [hmono m n hle hm] at hnf
    cases hnf
  cases hb : flag (update_movies w flag shards { mst := st, done := 0, poll := 0 }).poll with
  | true =>
      have hb2 : flag
          ((update_movies w flag shards { mst := st, done := 0, poll := 0 }).poll + 1) = true :=
        hmono _ _ (by omega) hb
      have he : fix_metadata_handler w flag shards st
          = { mst := (update_movies w flag shards { mst := st, done := 0, poll := 0 }).mst
            , done := (update_movies w flag shards { mst := st, done := 0, poll := 0 }).done
            , poll := (update_movies w flag shards { mst := st, done := 0, poll := 0 }).poll
                + 1 + 1 } := by
        simp [fix_metadata_handler, pollFlag, hb, hb2]
      refine ⟨dM, [], [], ?_, ?_, ?_, ?_, Or.inl rfl, ?_, ?_⟩
      · rw [he]
        simpa using hM
      · intro ev h
        exact ⟨(okM ev h).1, (okM ev h).2.1⟩
      · intro ev h
        simp at h
      · intro m hm k n hmem
        simp at hmem
        exact guardM m hm k n hmem
      · constructor
        · intro h
          exact absurd rfl h
        · intro h
          rw [he] at h
          simp at h
          rw [hb2] at h
          cases h
      · intro hall
        have hc := hall (update_movies w flag shards { mst := st, done := 0, poll := 0 }).poll
        rw [hb] at hc
        cases hc
  | false =>
      obtain ⟨dT, hT, okT⟩ := update_tv_step w flag shards
        { update_movies w flag shards { mst := st, done := 0, poll := 0 } with
          poll := (update_movies w flag shards { mst := st, done := 0, poll := 0 }).poll + 1 }
      have guardT : ∀ m, flag m = true → ∀ k n, Ev.unitStarted k n ∈ dT → n < m := by
        intro m hm k n hmem
        have hnf : flag n = false := (okT _ hmem).2.2 k n rfl
        by_contra hge
        have hle : m ≤ n := by omega
        rw [hmono m n hle hm] at hnf
        cases hnf
      have hTtr : (update_tv w flag shards
          { update_movies w flag shards { mst := st, done := 0, poll := 0 } with
            poll := (update_movies w flag shards
              { mst := st, done := 0, poll := 0 }).poll + 1 }).mst.trace
          = st.trace ++ dM ++ dT := by
        rw [hT]
        have : ({ update_movies w flag shards { mst := st, done := 0, poll := 0 } with
            poll := (update_movies w flag shards
              { mst := st, done := 0, poll := 0 }).poll + 1 }).mst
            = (update_movies w flag shards { mst := st, done := 0, poll := 0 }).mst := rfl
        rw [this]
        rw [show (update_movies w flag shards { mst := st, done := 0, poll := 0 }).mst.trace
          = st.trace ++ dM from hM]
      cases hb2 : flag (update_tv w flag shards
          { update_movies w flag shards { mst := st, done := 0, poll := 0 } with
            poll := (update_movies w flag shards
              { mst := st, done := 0, poll := 0 }).poll + 1 }).poll with
      | true =>
          have he : fix_metadata_handler w flag shards st
              = { update_tv w flag shards
                    { update_movies w flag shards { mst := st, done := 0, poll := 0 } with
                      poll := (update_movies w flag shards
                        { mst := st, done := 0, poll := 0 }).poll + 1 } with
                  poll := (update_tv w flag shards
                    { update_movies w flag shards { mst := st, done := 0, poll := 0 } with
                      poll := (update_movies w flag shards
                        { mst := st, done := 0, poll := 0 }).poll + 1 }).poll + 1 } := by
            simp [fix_metadata_handler, pollFlag, hb, hb2]
          refine ⟨dM, dT, [], ?_, ?_, ?_, ?_, Or.inl rfl, ?_, ?_⟩
          · rw [he]
            show (update_tv w flag shards _).mst.trace = _
            rw [hTtr]
            simp
          · intro ev h
            exact ⟨(okM ev h).1, (okM ev h).2.1⟩
          · intro ev h
            exact ⟨(okT ev h).1, (okT ev h).2.1⟩
          · intro m hm k n hmem
            simp at hmem
            rcases hmem with h | h
            · exact guardM m hm k n h
            · exact guardT m hm k n h
          · constructor
            · intro h
              exact absurd rfl h
            · intro h
              rw [he] at h
              simp at h
              rw [hb2] at h
              cases h
          · intro hall
            have hc := hall (update_tv w flag shards
              { update_movies w flag shards { mst := st, done := 0, poll := 0 } with
                poll := (update_movies w flag shards
                  { mst := st, done := 0, poll := 0 }).poll + 1 }).poll
            rw [hb2] at hc
            cases hc
      | false =>
          have he : fix_metadata_handler w flag shards st
              = ({ update_tv w flag shards
                    { update_movies w flag shards { mst := st, done := 0, poll := 0 } with
                      poll := (update_movies w flag shards
                        { mst := st, done := 0, poll := 0 }).poll + 1 } with
                  poll := (update_tv w flag shards
                    { update_movies w flag shards { mst := st, done := 0, poll := 0 } with
                      poll := (update_movies w flag shards
                        { mst := st, done := 0, poll := 0 }).poll + 1 }).poll + 1 }).emit
                  (.report (update_tv w flag shards
                    { update_movies w flag shards { mst := st, done := 0, poll := 0 } with
                      poll := (update_movies w flag shards
                        { mst := st, done := 0, poll := 0 }).poll + 1 }).done
                    (shards.foldl (fun (a : Nat) (sh : Shard) =>
                      a + sh.movies.length + sh.tvs.length) 0)
                    w.elapsed) := by
            simp [fix_metadata_handler, pollFlag, hb, hb2]
          refine ⟨dM, dT,
            [.report (fix_metadata_handler w flag shards st).done
              (shards.foldl (fun a sh => a + sh.movies.length + sh.tvs.length) 0) w.elapsed],
            ?_, ?_, ?_, ?_, Or.inr rfl, ?_, fun _ => rfl⟩
          · rw [he]
            simp [FSt.emit, St.emit, hTtr]
          · intro ev h
            exact ⟨(okM ev h).1, (okM ev h).2.1⟩
          · intro ev h
            exact ⟨(okT ev h).1, (okT ev h).2.1⟩
          · intro m hm k n hmem
            simp at hmem
            rcases hmem with h | h
            · exact guardM m hm k n h
            · exact guardT m hm k n h
          · constructor
            · intro _
              rw [he]
              simpa using hb2
            · intro _
              simp

def tvdoc_done : TvDoc :=
  { tmdb_id := some 7, title := some "S", release_year := some 2019
  , cast := ["A"], description := "D", genres := ["G"], logo := some "L"
  , seasons := [] }

def shards5 : List Shard := [{ movies := [doc_done], tvs := [tvdoc_done] }]

/-- **C5 witness**: a never-cancelled exhaustion run over one shard with
one (complete) movie and one (complete) show emits the final
`done/total/elapsed` report `2/2/0`. -/
theorem C5_cancellation_and_completion_witness :
    Ev.report 2 2 0 ∈ (fix_metadata_handler w0 flagF shards5 st0).mst.trace := by
  obtain ⟨dM, dT, dR, htr, _, _, _, _, _, h7⟩ :=
    C5_cancellation_and_completion w0 flagF shards5 st0 (fun i j _ h => h)
  have hdR := h7 (fun n => rfl)
  rw [htr, hdR]
  apply List.mem_append_right
  apply List.mem_append_right
  have he : Ev.report 2 2 0
      = Ev.report (fix_metadata_handler w0 flagF shards5 st0).done
        (shards5.foldl (fun a sh => a + sh.movies.length + sh.tvs.length) 0) w0.elapsed := by
    decide
  rw [he]
  simp
